import Mathlib

/-!
Verification of the trA real-time market-data pipeline against its source.

Shallow embedding of:
- `src/bridge/data_bridge.py` (DataBridge: validation gate, bounded queue backpressure)
- `src/adapters/angel/rate_limiter.py` (TokenBucketRateLimiter)
- `src/bridge/bar_aggregator.py` (BarAggregator)
- `src/manual/order_manager.py` (GTT orders, OCO pairs)
- `src/manual/bracket_orders.py` (bracket orders)
- `src/adapters/angel/data_client.py` (chunked historical fetch, continuity report)

Prices, token counts and wall-clock times are modelled as rationals (Python
floats), integer quantities as `Int`/`Nat`.
-/

/-! ## DataBridge (src/bridge/data_bridge.py) -/

/-- A raw tick as seen by `DataBridge._is_valid_tick`: whether the `token`
key maps to a non-`None` value, and which of the four recognised price keys
are present in the payload.  Other payload content is irrelevant to the
enqueue/validation logic and is carried opaquely as `payload`. -/
structure RawTick where
  token : Option Int
  has_ltp : Bool
  has_last_traded_price : Bool
  has_best_bid_price : Bool
  has_best_ask_price : Bool
  payload : Nat
deriving DecidableEq

/-- `DataBridge._is_valid_tick`: requires `token` non-`None` plus at least one
of the price-like keys `ltp`, `last_traded_price`, `best_bid_price`,
`best_ask_price`. -/
def is_valid_tick (t : RawTick) : Bool :=
  t.token.isSome &&
    (t.has_ltp || t.has_last_traded_price || t.has_best_bid_price || t.has_best_ask_price)

/-- State of a `DataBridge`: the bounded queue plus the `stats` counters and
the two Prometheus counters incremented by `_enqueue_tick`
(`BRIDGE_TICKS_INVALID`, `BRIDGE_TICKS_DROPPED`). -/
structure BridgeState where
  max_queue_size : Nat
  queue : List RawTick
  ticks_received : Nat
  ticks_dropped : Nat
  invalid_total : Nat
  dropped_total : Nat
deriving DecidableEq

/-- A fresh `DataBridge(max_queue_size)`. -/
def DataBridge_init (max_queue_size : Nat) : BridgeState :=
  { max_queue_size := max_queue_size
    queue := []
    ticks_received := 0
    ticks_dropped := 0
    invalid_total := 0
    dropped_total := 0 }

/-- `DataBridge._enqueue_tick`: invalid ticks bump `ticks_dropped` and the
invalid counter; valid ticks are enqueued via `Queue.put_nowait` (which raises
`QueueFull` exactly when `0 < maxsize ≤ qsize`), and on `QueueFull` the tick
is dropped and counted. -/
def enqueue_tick (s : BridgeState) (t : RawTick) : BridgeState :=
  if ¬ is_valid_tick t then
    { s with ticks_dropped := s.ticks_dropped + 1, invalid_total := s.invalid_total + 1 }
  else if 0 < s.max_queue_size ∧ s.max_queue_size ≤ s.queue.length then
    { s with ticks_dropped := s.ticks_dropped + 1, dropped_total := s.dropped_total + 1 }
  else
    { s with queue := s.queue ++ [t], ticks_received := s.ticks_received + 1 }

/-- A burst of submissions: each tick handed to `_enqueue_tick` in order, with
no consumer running. -/
def submit_burst (s : BridgeState) (ticks : List RawTick) : BridgeState :=
  ticks.foldl enqueue_tick s

/-- A concrete tick with no instrument token (but a price field). -/
def tickNoToken : RawTick :=
  { token := none, has_ltp := true, has_last_traded_price := false,
    has_best_bid_price := false, has_best_ask_price := false, payload := 0 }

/-- A concrete well-formed tick (token plus `ltp`). -/
def tickValid : RawTick :=
  { token := some 1, has_ltp := true, has_last_traded_price := false,
    has_best_bid_price := false, has_best_ask_price := false, payload := 0 }

/-! ## TokenBucketRateLimiter (src/adapters/angel/rate_limiter.py) -/

/-- Mutable state of a `TokenBucketRateLimiter`: refill rate (tokens/second),
bucket capacity, current token count and the wall-clock time of the last
refill, all rationals (Python floats). -/
structure LimiterState where
  rate : ℚ
  capacity : ℚ
  tokens : ℚ
  last_update : ℚ
deriving DecidableEq

/-- `TokenBucketRateLimiter(rate, capacity)` constructed at wall-clock time
`t0`: the bucket starts full and `last_update = time.time()`. -/
def TokenBucketRateLimiter_init (rate capacity t0 : ℚ) : LimiterState :=
  { rate := rate, capacity := capacity, tokens := capacity, last_update := t0 }

/-- `TokenBucketRateLimiter._refill` evaluated at wall-clock time `now`. -/
def limiter_refill (s : LimiterState) (now : ℚ) : LimiterState :=
  { s with tokens := min s.capacity (s.tokens + (now - s.last_update) * s.rate),
           last_update := now }

/-- `TokenBucketRateLimiter.acquire(tokens)` evaluated at wall-clock time
`now`: refill, then grant and deduct iff enough tokens are present. -/
def limiter_acquire (s : LimiterState) (now : ℚ) (n : ℚ) : Bool × LimiterState :=
  let s1 := limiter_refill s now
  if n ≤ s1.tokens then (true, { s1 with tokens := s1.tokens - n })
  else (false, s1)

/-- A sequence of `acquire(1)` calls at the given wall-clock times; returns
the results in order together with the final limiter state. -/
def limiter_acquireRun (s : LimiterState) : List ℚ → List Bool × LimiterState
  | [] => ([], s)
  | t :: ts =>
    let r := limiter_acquire s t 1
    let rest := limiter_acquireRun r.2 ts
    (r.1 :: rest.1, rest.2)

/-! ## BarAggregator (src/bridge/bar_aggregator.py) -/

/-- A normalized tick as consumed by `BarAggregator.on_tick`: symbol, last
price (`ltp`), tick volume, and the parsed tick timestamp in whole seconds
since the (local) epoch. -/
structure NTick where
  symbol : String
  ltp : ℚ
  volume : Int
  time : Nat
deriving DecidableEq

/-- An OHLCV bar bucket as built by `BarAggregator._new_bar` and updated by
`on_tick` (the Python dict with keys symbol/bar_start/interval_seconds/open/
high/low/close/volume/tick_count). -/
structure Bar where
  symbol : String
  bar_start : Nat
  interval_seconds : Nat
  open_ : ℚ
  high : ℚ
  low : ℚ
  close : ℚ
  volume : Int
  tick_count : Nat
deriving DecidableEq

/-- The `_bars` dict: association list from `(symbol, interval_seconds)` to
the open bar, in insertion order. -/
abbrev BarMap := List ((String × Nat) × Bar)

/-- Python dict read `self._bars[key]`. -/
def lookupBar (k : String × Nat) : BarMap → Option Bar
  | [] => none
  | (k2, b) :: rest => if k2 = k then some b else lookupBar k rest

/-- Python dict write `self._bars[key] = bar` (replaces in place, appends if
absent). -/
def setBar (k : String × Nat) (b : Bar) : BarMap → BarMap
  | [] => [(k, b)]
  | (k2, b2) :: rest => if k2 = k then (k, b) :: rest else (k2, b2) :: setBar k b rest

/-- `BarAggregator._get_bar_start`: align a timestamp to the start of its
interval bucket, counting seconds since that day's midnight. -/
def get_bar_start (tick_time interval_seconds : Nat) : Nat :=
  let day_start := (tick_time / 86400) * 86400
  let seconds_since_midnight := tick_time - day_start
  day_start + (seconds_since_midnight / interval_seconds) * interval_seconds

/-- `BarAggregator._new_bar`. -/
def new_bar (symbol : String) (bar_start interval : Nat) (price : ℚ) (volume : Int) : Bar :=
  { symbol := symbol, bar_start := bar_start, interval_seconds := interval,
    open_ := price, high := price, low := price, close := price,
    volume := volume, tick_count := 1 }

/-- One iteration of the per-interval loop body of `BarAggregator.on_tick`
(bar_aggregator.py lines 78-99): start, roll over, or update the open bar;
returns the updated `_bars` map and the bars emitted by this iteration. -/
def on_tick_interval (symbol : String) (ltp : ℚ) (volume : Int) (time interval : Nat)
    (bars : BarMap) : BarMap × List Bar :=
  let key := (symbol, interval)
  let bar_start := get_bar_start time interval
  match lookupBar key bars with
  | none => (setBar key (new_bar symbol bar_start interval ltp volume) bars, [])
  | some current_bar =>
    if current_bar.bar_start < bar_start then
      (setBar key (new_bar symbol bar_start interval ltp volume) bars, [current_bar])
    else
      (setBar key
        { current_bar with
          high := max current_bar.high ltp,
          low := min current_bar.low ltp,
          close := ltp,
          volume := current_bar.volume + volume,
          tick_count := current_bar.tick_count + 1 } bars, [])

/-- State of a `BarAggregator`: configured intervals and the open-bar map. -/
structure BarAggregator where
  intervals : List Nat
  bars : BarMap
deriving DecidableEq

/-- `BarAggregator(intervals)`. -/
def BarAggregator_init (intervals : List Nat) : BarAggregator :=
  { intervals := intervals, bars := [] }

/-- `BarAggregator.on_tick`: skip non-positive prices, then run the
per-interval loop; emitted bars are collected in loop order. -/
def on_tick (a : BarAggregator) (t : NTick) : BarAggregator × List Bar :=
  if t.ltp ≤ 0 then (a, [])
  else
    let r := a.intervals.foldl
      (fun acc i =>
        let step := on_tick_interval t.symbol t.ltp t.volume t.time i acc.1
        (step.1, acc.2 ++ step.2))
      (a.bars, ([] : List Bar))
    ({ a with bars := r.1 }, r.2)

/-- `BarAggregator.flush`: emit every open bar in map order and clear. -/
def flush (a : BarAggregator) : BarAggregator × List Bar :=
  ({ a with bars := [] }, a.bars.map Prod.snd)

/-- Feed a list of ticks through `on_tick`, collecting all emitted bars. -/
def run_ticks (a : BarAggregator) : List NTick → BarAggregator × List Bar
  | [] => (a, [])
  | t :: ts =>
    let r := on_tick a t
    let rest := run_ticks r.1 ts
    (rest.1, r.2 ++ rest.2)

/-- The bar invariant of claim C6: prices are consistent, at least one tick,
and the bucket start is a multiple of the interval in seconds since local
midnight. -/
def bar_wf (b : Bar) : Prop :=
  b.low ≤ min b.open_ b.close ∧ max b.open_ b.close ≤ b.high ∧
  1 ≤ b.tick_count ∧ b.interval_seconds ∣ b.bar_start % 86400

/-- Two concrete ticks 61 seconds apart (bucket roll-over at interval 60). -/
def exTicks6 : List NTick :=
  [ { symbol := "X", ltp := 100, volume := 1, time := 0 },
    { symbol := "X", ltp := 105, volume := 2, time := 61 } ]

/-- The bar the first tick of `exTicks6` opens, emitted when the second tick
crosses into the next bucket. -/
def exBar6 : Bar :=
  { symbol := "X", bar_start := 0, interval_seconds := 60,
    open_ := 100, high := 100, low := 100, close := 100, volume := 1, tick_count := 1 }

/-- A concrete open bar for the bucket starting at second 60. -/
def exBar10 : Bar :=
  { symbol := "X", bar_start := 60, interval_seconds := 60,
    open_ := 10, high := 12, low := 9, close := 11, volume := 5, tick_count := 3 }

/-- A `_bars` map holding only `exBar10`. -/
def exBars10 : BarMap := [(("X", 60), exBar10)]

/-- An out-of-order tick from the previous (already passed) bucket. -/
def exTick10 : NTick := { symbol := "X", ltp := 8, volume := 2, time := 30 }

/-! ## GTT order engine (src/manual/order_manager.py) -/

/-- GTT order lifecycle states. -/
inductive GttStatus where
  | ACTIVE
  | TRIGGERED
  | CANCELLED
deriving DecidableEq

/-- A `GTTOrder` record; the Python uuid-based id is modelled as a `Nat`.
`condition` is the raw string (`"GTE"` / `"LTE"`), as in the source. -/
structure GTTOrder where
  id : Nat
  symbol : String
  trigger_price : ℚ
  limit_price : ℚ
  quantity : Int
  side : String
  condition : String
  status : GttStatus
deriving DecidableEq

/-- `GTTOrder.check_trigger`. -/
def check_trigger (g : GTTOrder) (current_price : ℚ) : Bool :=
  if g.status ≠ GttStatus.ACTIVE then false
  else if g.condition = "GTE" ∧ g.trigger_price ≤ current_price then true
  else if g.condition = "LTE" ∧ current_price ≤ g.trigger_price then true
  else false

/-- The dict passed to the order callback when a GTT fires (symbol, side,
quantity, the order's limit price, source "GTT", the firing order's id). -/
structure OrderEvent where
  symbol : String
  side : String
  quantity : Int
  price : ℚ
  source : String
  gtt_id : Nat
deriving DecidableEq

/-- State of an `AdvancedOrderManager`: the `gtt_orders` dict in insertion
order (keys are the unique order ids) and the `oco_pairs` dict as an
association list. -/
structure AdvancedOrderManager where
  gtt_orders : List GTTOrder
  oco_pairs : List (Nat × Nat)
deriving DecidableEq

/-- `AdvancedOrderManager.cancel_gtt` applied to the orders dict: an ACTIVE
order with the given id becomes CANCELLED; anything else is untouched. -/
def cancel_gtt (orders : List GTTOrder) (order_id : Nat) : List GTTOrder :=
  orders.map fun g =>
    if g.id = order_id ∧ g.status = GttStatus.ACTIVE then
      { g with status := GttStatus.CANCELLED }
    else g

/-- `oco_pairs.get(gtt_id)`. -/
def oco_lookup : List (Nat × Nat) → Nat → Option Nat
  | [], _ => none
  | (k, v) :: rest, k2 => if k = k2 then some v else oco_lookup rest k2

/-- The order-dict mutation performed when the order at position `i` fires:
mark it TRIGGERED, then cancel its OCO partner if one is registered. -/
def fire_update (oco : List (Nat × Nat)) (orders : List GTTOrder) (i : Nat) (g : GTTOrder) :
    List GTTOrder :=
  let orders1 := orders.set i { g with status := GttStatus.TRIGGERED }
  match oco_lookup oco g.id with
  | some partner_id => cancel_gtt orders1 partner_id
  | none => orders1

/-- The order-submission event emitted when `g` fires. -/
def fire_event (g : GTTOrder) : OrderEvent :=
  { symbol := g.symbol, side := g.side, quantity := g.quantity,
    price := g.limit_price, source := "GTT", gtt_id := g.id }

/-- The loop of `AdvancedOrderManager.check_triggers`, iterating the orders
dict by position `i` with `fuel` remaining iterations (the number of orders —
invariant, since the loop adds/removes nothing).  Status mutations (marking
TRIGGERED, cancelling the OCO partner) are visible to later iterations of the
same loop, as with Python's in-place object mutation. -/
def check_triggers_from (oco : List (Nat × Nat)) (symbol : String) (current_price : ℚ) :
    List GTTOrder → Nat → Nat → List GTTOrder × List OrderEvent
  | orders, _, 0 => (orders, [])
  | orders, i, fuel + 1 =>
    match orders[i]? with
    | none => (orders, [])
    | some g =>
      if g.symbol = symbol ∧ g.status = GttStatus.ACTIVE ∧ check_trigger g current_price then
        let r := check_triggers_from oco symbol current_price
          (fire_update oco orders i g) (i + 1) fuel
        (r.1, fire_event g :: r.2)
      else
        check_triggers_from oco symbol current_price orders (i + 1) fuel

/-- `AdvancedOrderManager.check_triggers`. -/
def check_triggers (m : AdvancedOrderManager) (symbol : String) (current_price : ℚ) :
    AdvancedOrderManager × List OrderEvent :=
  let r := check_triggers_from m.oco_pairs symbol current_price m.gtt_orders 0
    m.gtt_orders.length
  ({ m with gtt_orders := r.1 }, r.2)

/-- A sequence of price updates fed through `check_triggers`, collecting all
order-submission events. -/
def run_price_checks (m : AdvancedOrderManager) :
    List (String × ℚ) → AdvancedOrderManager × List OrderEvent
  | [] => (m, [])
  | (s, p) :: rest =>
    let r := check_triggers m s p
    let r2 := run_price_checks r.1 rest
    (r2.1, r.2 ++ r2.2)

/-- `AdvancedOrderManager.place_gtt`, with the generated uuid modelled as an
explicit fresh id. -/
def place_gtt (m : AdvancedOrderManager) (id_ : Nat) (symbol : String)
    (trigger_price limit_price : ℚ) (quantity : Int) (side condition : String) :
    AdvancedOrderManager :=
  { m with gtt_orders := m.gtt_orders ++
      [{ id := id_, symbol := symbol, trigger_price := trigger_price,
         limit_price := limit_price, quantity := quantity, side := side,
         condition := condition, status := GttStatus.ACTIVE }] }

/-- `AdvancedOrderManager.place_oco`: a SELL/GTE target leg and a SELL/LTE
stop-loss leg, cross-linked in `oco_pairs`. -/
def place_oco (m : AdvancedOrderManager) (target_id sl_id : Nat) (symbol : String)
    (target_price stop_loss_price : ℚ) (quantity : Int) : AdvancedOrderManager :=
  let m1 := place_gtt m target_id symbol target_price target_price quantity "SELL" "GTE"
  let m2 := place_gtt m1 sl_id symbol stop_loss_price stop_loss_price quantity "SELL" "LTE"
  { m2 with oco_pairs := m2.oco_pairs ++ [(target_id, sl_id), (sl_id, target_id)] }

/-- Number of order-submission events attributed to the order id `o`. -/
def eventCountFor (o : Nat) (evs : List OrderEvent) : Nat :=
  (evs.filter fun e => e.gtt_id = o).length

/-- The reachable joint configurations of an OCO pair sitting at positions
`jT`/`jS` of the orders dict, together with how many events each leg has
produced so far: either neither leg has fired (and neither is TRIGGERED), or
exactly one leg fired once, is TRIGGERED, and its partner is CANCELLED with
no event. -/
def oco_pair_state (orders : List GTTOrder) (jT jS tid sid : Nat) (cT cS : Nat) : Prop :=
  ∃ gT gS, orders[jT]? = some gT ∧ orders[jS]? = some gS ∧ gT.id = tid ∧ gS.id = sid ∧
    ((cT = 0 ∧ cS = 0 ∧ gT.status ≠ GttStatus.TRIGGERED ∧ gS.status ≠ GttStatus.TRIGGERED) ∨
     (cT = 1 ∧ cS = 0 ∧ gT.status = GttStatus.TRIGGERED ∧ gS.status = GttStatus.CANCELLED) ∨
     (cS = 1 ∧ cT = 0 ∧ gS.status = GttStatus.TRIGGERED ∧ gT.status = GttStatus.CANCELLED))

/-- A concrete GTT order: GTE trigger at 500 on symbol "X". -/
def gttEx : GTTOrder :=
  { id := 7, symbol := "X", trigger_price := 500, limit_price := 500, quantity := 1,
    side := "BUY", condition := "GTE", status := GttStatus.ACTIVE }

/-- A manager holding only `gttEx`. -/
def mExC7 : AdvancedOrderManager := { gtt_orders := [gttEx], oco_pairs := [] }

/-- Price path 495 → 505 → 495 → 505 (crosses the trigger, then oscillates). -/
def checksExC7 : List (String × ℚ) := [("X", 495), ("X", 505), ("X", 495), ("X", 505)]

/-! ## Bracket orders (src/manual/bracket_orders.py) -/

/-- Bracket order lifecycle states. -/
inductive BracketStatus where
  | PENDING
  | ENTERED
  | COMPLETED
  | STOPPED_OUT
  | CANCELLED
deriving DecidableEq

/-- A `BracketOrder` record (uuid id modelled as `Nat`). -/
structure BracketOrder where
  id : Nat
  symbol : String
  side : String
  quantity : Int
  entry_price : ℚ
  stop_loss : ℚ
  target : ℚ
  order_type : String
  status : BracketStatus
  entry_filled : Bool
  pnl : ℚ
deriving DecidableEq

/-- An order-execution event passed to the bracket manager's callback. -/
structure BracketEvent where
  symbol : String
  side : String
  quantity : Int
  price : ℚ
  source : String
  bracket_id : Nat
deriving DecidableEq

/-- State of a `BracketOrderManager`: the `orders` dict in insertion order. -/
structure BracketOrderManager where
  orders : List BracketOrder
deriving DecidableEq

/-- `BracketOrderManager._fill_entry`: mark ENTERED and emit the entry event. -/
def fill_entry (bo : BracketOrder) (price : ℚ) : BracketOrder × List BracketEvent :=
  ({ bo with status := BracketStatus.ENTERED, entry_filled := true },
   [{ symbol := bo.symbol, side := bo.side, quantity := bo.quantity, price := price,
      source := "BRACKET_ENTRY", bracket_id := bo.id }])

/-- `BracketOrderManager.place_bracket_order`: validate that stop-loss and
target sit on the correct side of the entry price for the direction (any
non-"BUY" side takes the SELL branch, as in the source); on violation return
`""` (here `none`) without creating or storing anything or emitting any
event.  On success store the new PENDING order (and, for MARKET orders,
immediately fill the entry). -/
def place_bracket_order (m : BracketOrderManager) (id_ : Nat) (symbol side : String)
    (quantity : Int) (entry_price stop_loss target : ℚ) (order_type : String) :
    Option Nat × BracketOrderManager × List BracketEvent :=
  if side = "BUY" ∧ entry_price ≤ stop_loss then (none, m, [])
  else if side = "BUY" ∧ target ≤ entry_price then (none, m, [])
  else if side ≠ "BUY" ∧ stop_loss ≤ entry_price then (none, m, [])
  else if side ≠ "BUY" ∧ entry_price ≤ target then (none, m, [])
  else
    let bo : BracketOrder :=
      { id := id_, symbol := symbol, side := side, quantity := quantity,
        entry_price := entry_price, stop_loss := stop_loss, target := target,
        order_type := order_type, status := BracketStatus.PENDING,
        entry_filled := false, pnl := 0 }
    if order_type = "MARKET" then
      let r := fill_entry bo entry_price
      (some id_, { orders := m.orders ++ [r.1] }, r.2)
    else
      (some id_, { orders := m.orders ++ [bo] }, [])

/-! ## Chunked historical fetch (src/adapters/angel/data_client.py) -/

/-- One parsed historical candle row; the timestamp is in seconds (rational,
as pandas datetimes are exact here). -/
structure Candle where
  timestamp : ℚ
  open_ : ℚ
  high : ℚ
  low : ℚ
  close : ℚ
  volume : ℚ
deriving DecidableEq

/-- The `INTERVAL_SECONDS` dict (data_client.py lines 21-30). -/
def INTERVAL_SECONDS (interval : String) : Option Nat :=
  if interval = "ONE_MINUTE" then some 60
  else if interval = "THREE_MINUTE" then some 180
  else if interval = "FIVE_MINUTE" then some 300
  else if interval = "TEN_MINUTE" then some 600
  else if interval = "FIFTEEN_MINUTE" then some 900
  else if interval = "THIRTY_MINUTE" then some 1800
  else if interval = "ONE_HOUR" then some 3600
  else if interval = "ONE_DAY" then some 86400
  else none

/-- Python `str.upper()` restricted to the ASCII interval names used here. -/
def upperAscii (s : String) : String := ⟨s.data.map Char.toUpper⟩

/-- `AngelDataClient._recommended_chunk_days`. -/
def recommended_chunk_days (interval : String) : Int :=
  let i := upperAscii interval
  if i = "ONE_MINUTE" ∨ i = "THREE_MINUTE" ∨ i = "FIVE_MINUTE" then 1
  else if i = "TEN_MINUTE" ∨ i = "FIFTEEN_MINUTE" ∨ i = "THIRTY_MINUTE" then 3
  else if i = "ONE_HOUR" then 15
  else 30

/-- The `while current_from < to_date` loop of `get_historical_data_chunked`:
the `[current_from, current_to)` sub-ranges requested, in order, with dates
in seconds and the chunk size in seconds.  (The `0 < chunk_secs` conjunct
only makes the recursion total; the caller always passes a positive chunk
size — Python would loop forever otherwise.) -/
def chunkRanges (from_date to_date chunk_secs : Int) : List (Int × Int) :=
  if _h : from_date < to_date ∧ 0 < chunk_secs then
    (from_date, min (from_date + chunk_secs) to_date) ::
      chunkRanges (min (from_date + chunk_secs) to_date) to_date chunk_secs
  else []
termination_by (to_date - from_date).toNat
decreasing_by
  omega

/-- The effective chunking of `get_historical_data_chunked`: `chunk_days`
defaults to 30 when non-positive, then is clamped by the per-interval
recommendation; one fetch is issued per resulting sub-range. -/
def chunk_request_ranges (interval : String) (from_date to_date chunk_days : Int) :
    List (Int × Int) :=
  let cd0 := if chunk_days ≤ 0 then (30 : Int) else chunk_days
  let cd := min cd0 (recommended_chunk_days interval)
  chunkRanges from_date to_date (cd * 86400)

/-- The non-empty per-chunk results collected into `all_dfs`; the upstream
single-range fetch (`get_historical_data`, with auth, retries and parsing) is
abstracted as an oracle returning `none` for a failed chunk. -/
def collectChunks (fetch : Int → Int → Option (List Candle)) :
    List (Int × Int) → List (List Candle)
  | [] => []
  | r :: rest =>
    match fetch r.1 r.2 with
    | some df =>
      if df = [] then collectChunks fetch rest else df :: collectChunks fetch rest
    | none => collectChunks fetch rest

/-- pandas `drop_duplicates(subset=["timestamp"], keep="first")`: keep the
first row for each timestamp, preserving order; `seen` holds the timestamps
already kept. -/
def dropDupTimestamps (seen : List ℚ) : List Candle → List Candle
  | [] => []
  | c :: rest =>
    if c.timestamp ∈ seen then dropDupTimestamps seen rest
    else c :: dropDupTimestamps (c.timestamp :: seen) rest

/-- The row order `sort_values("timestamp")` sorts by. -/
def candleLE (a b : Candle) : Prop := a.timestamp ≤ b.timestamp

instance : DecidableRel candleLE :=
  fun a b => inferInstanceAs (Decidable (a.timestamp ≤ b.timestamp))

instance : IsTotal Candle candleLE := ⟨fun a b => le_total a.timestamp b.timestamp⟩

instance : IsTrans Candle candleLE := ⟨fun _ _ _ h1 h2 => le_trans h1 h2⟩

/-- pandas `sort_values("timestamp")`; timestamps are distinct after
de-duplication, so any comparison sort yields this list. -/
def sortCandles (l : List Candle) : List Candle := l.insertionSort candleLE

/-- The continuity statistics of `AngelDataClient._continuity_summary`. -/
structure ContinuityReport where
  gap_count : Nat
  duplicate_count : Nat
deriving DecidableEq

/-- `AngelDataClient._continuity_summary`: sort the timestamps, count
repeated timestamps, then count inter-sample deltas exceeding 1.5× the
nominal interval (0 gaps when the interval is unknown or under 2 samples). -/
def continuity_summary (df : List Candle) (interval : String) : ContinuityReport :=
  if df = [] then ⟨0, 0⟩
  else
    let ts := (df.map Candle.timestamp).insertionSort (· ≤ ·)
    let duplicate_count := ts.length - ts.dedup.length
    match INTERVAL_SECONDS (upperAscii interval) with
    | none => ⟨0, duplicate_count⟩
    | some e =>
      if ts.length < 2 then ⟨0, duplicate_count⟩
      else
        ⟨((List.zipWith (fun a b => b - a) ts ts.tail).filter
            fun d => decide ((e : ℚ) * 1.5 < d)).length, duplicate_count⟩

/-- `AngelDataClient.get_historical_data_chunked`: request the sub-ranges in
order, keep non-empty results, concatenate, drop duplicate timestamps
keep-first, sort ascending; `none` when every chunk failed or was empty. -/
def get_historical_data_chunked (fetch : Int → Int → Option (List Candle))
    (interval : String) (from_date to_date chunk_days : Int) : Option (List Candle) :=
  let all_dfs := collectChunks fetch
    (chunk_request_ranges interval from_date to_date chunk_days)
  if all_dfs = [] then none
  else some (sortCandles (dropDupTimestamps [] all_dfs.flatten))

/-- The report the chunked fetch computes (data_client.py line 287) — over
the already de-duplicated, sorted merged frame; it is logged, not returned. -/
def chunked_continuity (fetch : Int → Int → Option (List Candle))
    (interval : String) (from_date to_date chunk_days : Int) : ContinuityReport :=
  match get_historical_data_chunked fetch interval from_date to_date chunk_days with
  | none => ⟨0, 0⟩
  | some merged => continuity_summary merged interval

/-- The count the spec ascribes to `duplicate_count`: how many rows of the
concatenated, pre-de-duplication chunks repeat an earlier timestamp. -/
def duplicatesBeforeDedup (chunks : List (List Candle)) : Nat :=
  (chunks.flatten.map Candle.timestamp).length -
    (chunks.flatten.map Candle.timestamp).dedup.length

/-- Adjacent deltas of a candle series exceeding 1.5× the nominal interval
(the spec's gap definition, read over the returned merged series). -/
def gapCount (l : List Candle) (e : Nat) : Nat :=
  ((List.zipWith (fun a b => b - a) (l.map Candle.timestamp)
      (l.map Candle.timestamp).tail).filter
    fun d => decide ((e : ℚ) * 1.5 < d)).length

/-- A one-minute candle row with all prices 1. -/
def exCandle (t : ℚ) : Candle :=
  { timestamp := t, open_ := 1, high := 1, low := 1, close := 1, volume := 1 }

/-- A fetch oracle whose two day-chunks share the boundary candle at t=60. -/
def exFetchC1 (f _t : Int) : Option (List Candle) :=
  if f = 0 then some [exCandle 0, exCandle 60] else some [exCandle 60, exCandle 120]

/-- A fetch oracle returning the same single candle for every sub-range. -/
def exFetchC2 (_f _t : Int) : Option (List Candle) := some [exCandle 0]

/-! ## Theorems for claims C3 and C4 -/

theorem enqueue_tick_invalid (s : BridgeState) (t : RawTick) (h : is_valid_tick t = false) :
    enqueue_tick s t =
      { s with ticks_dropped := s.ticks_dropped + 1, invalid_total := s.invalid_total + 1 } := by
  simp [enqueue_tick, h]

/-- C3: a tick lacking an instrument token, or lacking every recognisable
price-like field, is never placed on the queue; the invalid-tick counter
(`BRIDGE_TICKS_INVALID`) increments by exactly one and `ticks_received` is
unchanged. -/
theorem C3_invalid_tick_rejected (s : BridgeState) (t : RawTick)
    (h : t.token = none ∨
      (t.has_ltp = false ∧ t.has_last_traded_price = false ∧
       t.has_best_bid_price = false ∧ t.has_best_ask_price = false)) :
    (enqueue_tick s t).queue = s.queue ∧
    (enqueue_tick s t).invalid_total = s.invalid_total + 1 ∧
    (enqueue_tick s t).ticks_received = s.ticks_received := by
  have hv : is_valid_tick t = false := by
    rcases h with h | ⟨h1, h2, h3, h4⟩
    · simp [is_valid_tick, h]
    · simp [is_valid_tick, h1, h2, h3, h4]
  rw [enqueue_tick_invalid s t hv]
  exact ⟨rfl, rfl, rfl⟩

theorem C3_invalid_tick_rejected_witness :
    (enqueue_tick (DataBridge_init 10) tickNoToken).queue = [] ∧
    (enqueue_tick (DataBridge_init 10) tickNoToken).invalid_total = 1 ∧
    (enqueue_tick (DataBridge_init 10) tickNoToken).ticks_received = 0 :=
  C3_invalid_tick_rejected (DataBridge_init 10) tickNoToken (Or.inl rfl)

/-- Helper for C4: a burst of valid ticks starting from a queue of length `q`
with `q ≤ C` fills the queue up to capacity and drops the excess. -/
theorem submit_burst_valid_count (ticks : List RawTick)
    (hvalid : ∀ t ∈ ticks, is_valid_tick t = true) :
    ∀ s : BridgeState, 0 < s.max_queue_size → s.queue.length ≤ s.max_queue_size →
      (submit_burst s ticks).queue.length =
        min (s.queue.length + ticks.length) s.max_queue_size ∧
      (submit_burst s ticks).ticks_dropped =
        s.ticks_dropped +
          ((s.queue.length + ticks.length) - min (s.queue.length + ticks.length) s.max_queue_size) ∧
      (submit_burst s ticks).ticks_received =
        s.ticks_received +
          (min (s.queue.length + ticks.length) s.max_queue_size - s.queue.length) ∧
      (submit_burst s ticks).max_queue_size = s.max_queue_size := by
  induction ticks with
  | nil =>
    intro s hpos hle
    have hmin : min s.queue.length s.max_queue_size = s.queue.length := Nat.min_eq_left hle
    simp only [submit_burst, List.foldl_nil, List.length_nil, Nat.add_zero, hmin]
    refine ⟨by simp, by omega, by omega, by simp⟩
  | cons t rest ih =>
    intro s hpos hle
    have hvt : is_valid_tick t = true := hvalid t (by simp)
    have hvrest : ∀ u ∈ rest, is_valid_tick u = true := fun u hu => hvalid u (by simp [hu])
    have hsteps : submit_burst s (t :: rest) = submit_burst (enqueue_tick s t) rest := by
      simp [submit_burst]
    by_cases hfull : s.max_queue_size ≤ s.queue.length
    · -- queue already full: the tick is dropped
      have hstep : enqueue_tick s t =
          { s with ticks_dropped := s.ticks_dropped + 1, dropped_total := s.dropped_total + 1 } := by
        simp [enqueue_tick, hvt, hpos, hfull]
      have e1 : (enqueue_tick s t).queue = s.queue := by rw [hstep]
      have e2 : (enqueue_tick s t).ticks_dropped = s.ticks_dropped + 1 := by rw [hstep]
      have e3 : (enqueue_tick s t).ticks_received = s.ticks_received := by rw [hstep]
      have e4 : (enqueue_tick s t).max_queue_size = s.max_queue_size := by rw [hstep]
      obtain ⟨H1, H2, H3, H4⟩ := ih hvrest (enqueue_tick s t)
        (by rw [e4]; exact hpos) (by rw [e1, e4]; exact hle)
      rw [e1, e4] at H1
      rw [e1, e2, e4] at H2
      rw [e1, e3, e4] at H3
      rw [e4] at H4
      rw [hsteps, H1, H2, H3, H4]
      refine ⟨?_, ?_, ?_, rfl⟩ <;> simp only [List.length_cons] <;> omega
    · -- space available: the tick is enqueued
      have hcond : ¬ (0 < s.max_queue_size ∧ s.max_queue_size ≤ s.queue.length) := by omega
      have hstep : enqueue_tick s t =
          { s with queue := s.queue ++ [t], ticks_received := s.ticks_received + 1 } := by
        simp [enqueue_tick, hvt, hcond]
      have e1 : (enqueue_tick s t).queue.length = s.queue.length + 1 := by rw [hstep]; simp
      have e2 : (enqueue_tick s t).ticks_dropped = s.ticks_dropped := by rw [hstep]
      have e3 : (enqueue_tick s t).ticks_received = s.ticks_received + 1 := by rw [hstep]
      have e4 : (enqueue_tick s t).max_queue_size = s.max_queue_size := by rw [hstep]
      obtain ⟨H1, H2, H3, H4⟩ := ih hvrest (enqueue_tick s t)
        (by rw [e4]; exact hpos) (by rw [e1, e4]; omega)
      rw [e1, e4] at H1
      rw [e1, e2, e4] at H2
      rw [e1, e3, e4] at H3
      rw [e4] at H4
      rw [hsteps, H1, H2, H3, H4]
      refine ⟨?_, ?_, ?_, rfl⟩ <;> simp only [List.length_cons] <;> omega

/-- C4: a valid tick arriving on a full queue is dropped (queue unchanged,
never over capacity, nothing blocks) with the dropped-tick counter bumped by
one; and a burst of `N` valid ticks into an empty queue of capacity `C > 0`
with no consumption yields exactly `N - C` drops when `N > C`, with the queue
capped at `C`. -/
theorem C4_backpressure (s : BridgeState) (t : RawTick) (C N : Nat) (ticks : List RawTick)
    (hvt : is_valid_tick t = true)
    (hfull : 0 < s.max_queue_size ∧ s.max_queue_size ≤ s.queue.length)
    (hC : 0 < C) (hN : C < N) (hlen : ticks.length = N)
    (hvalid : ∀ u ∈ ticks, is_valid_tick u = true) :
    ((enqueue_tick s t).queue = s.queue ∧
      (enqueue_tick s t).ticks_dropped = s.ticks_dropped + 1) ∧
    (submit_burst (DataBridge_init C) ticks).ticks_dropped = N - C ∧
    (submit_burst (DataBridge_init C) ticks).queue.length = C ∧
    (submit_burst (DataBridge_init C) ticks).ticks_received = C := by
  constructor
  · have hstep : enqueue_tick s t =
        { s with ticks_dropped := s.ticks_dropped + 1, dropped_total := s.dropped_total + 1 } := by
      simp [enqueue_tick, hvt, hfull.1, hfull.2]
    rw [hstep]
    exact ⟨rfl, rfl⟩
  · obtain ⟨h1, h2, h3, _⟩ := submit_burst_valid_count ticks hvalid (DataBridge_init C)
      (by simpa [DataBridge_init]) (by simp [DataBridge_init])
    have hq : (DataBridge_init C).queue = ([] : List RawTick) := rfl
    have hm : (DataBridge_init C).max_queue_size = C := rfl
    have hr : (DataBridge_init C).ticks_received = 0 := rfl
    have hd : (DataBridge_init C).ticks_dropped = 0 := rfl
    rw [hq, hm, hd, hlen] at h2
    rw [hq, hm, hlen] at h1
    rw [hq, hm, hr, hlen] at h3
    simp only [List.length_nil, Nat.zero_add] at h1 h2 h3
    refine ⟨?_, ?_, ?_⟩
    · rw [h2]; omega
    · rw [h1]; omega
    · rw [h3]; omega

theorem C4_backpressure_witness :
    (submit_burst (DataBridge_init 2) (List.replicate 5 tickValid)).ticks_dropped = 3 ∧
    (submit_burst (DataBridge_init 2) (List.replicate 5 tickValid)).queue.length = 2 ∧
    (submit_burst (DataBridge_init 2) (List.replicate 5 tickValid)).ticks_received = 2 :=
  (C4_backpressure (submit_burst (DataBridge_init 2) (List.replicate 2 tickValid))
    tickValid 2 5 (List.replicate 5 tickValid)
    (by decide)
    ⟨by decide, by decide⟩
    (by decide) (by decide) (by decide)
    (by intro u hu; rw [List.eq_of_mem_replicate hu]; decide)).2

/-! ## Theorems for claim C5 -/

theorem limiter_acquireRun_append (l1 l2 : List ℚ) : ∀ s : LimiterState,
    limiter_acquireRun s (l1 ++ l2) =
      ((limiter_acquireRun s l1).1 ++
        (limiter_acquireRun (limiter_acquireRun s l1).2 l2).1,
       (limiter_acquireRun (limiter_acquireRun s l1).2 l2).2) := by
  induction l1 with
  | nil => intro s; simp [limiter_acquireRun]
  | cons t ts ih => intro s; simp [limiter_acquireRun, ih]

theorem limiter_drain : ∀ k : ℕ, k ≤ 10 → ∀ s : LimiterState,
    s.rate = 10 → s.capacity = 10 → s.last_update = 0 → s.tokens = (k : ℚ) →
    limiter_acquireRun s (List.replicate k 0) =
      (List.replicate k true,
       { rate := 10, capacity := 10, tokens := 0, last_update := 0 }) := by
  intro k
  induction k with
  | zero =>
    intro _ s h1 h2 h3 h4
    obtain ⟨r, c, tk, lu⟩ := s
    simp only at h1 h2 h3 h4
    subst h1; subst h2; subst h3
    norm_num at h4
    subst h4
    simp [limiter_acquireRun]
  | succ k ih =>
    intro hk s h1 h2 h3 h4
    obtain ⟨r, c, tk, lu⟩ := s
    simp only at h1 h2 h3 h4
    subst h1; subst h2; subst h3; subst h4
    have hcast : ((k : ℚ) + 1) ≤ 10 := by exact_mod_cast hk
    have hstep : limiter_acquire
        { rate := 10, capacity := 10, tokens := ((k + 1 : ℕ) : ℚ), last_update := 0 } 0 1 =
        (true, { rate := 10, capacity := 10, tokens := (k : ℚ), last_update := 0 }) := by
      unfold limiter_acquire limiter_refill
      have he : ((k + 1 : ℕ) : ℚ) + (0 - 0) * 10 = (k : ℚ) + 1 := by push_cast; ring
      simp only [he]
      rw [min_eq_right hcast, if_pos (by linarith [Nat.cast_nonneg (α := ℚ) k])]
      simp
    rw [List.replicate_succ]
    simp only [limiter_acquireRun, hstep]
    rw [ih (by omega) _ rfl rfl rfl rfl]
    simp [List.replicate_succ]

/-- C5: `acquire(n)` first applies the lazy refill
`tokens := min(capacity, tokens + elapsed*rate)`, grants and deducts `n`
exactly when at least `n` tokens are then available, else refuses leaving the
(refilled) token count unchanged; and for `rate=10, capacity=10`, ten
immediate `acquire(1)` calls succeed, the eleventh fails, and after waiting
`w` with `100ms ≤ w < 200ms` exactly one further `acquire(1)` succeeds. -/
theorem C5_token_bucket (w : ℚ) (hw1 : 1/10 ≤ w) (hw2 : w < 2/10) :
    (∀ (s : LimiterState) (now n : ℚ),
      ((limiter_acquire s now n).1 = true ↔
        n ≤ min s.capacity (s.tokens + (now - s.last_update) * s.rate)) ∧
      (limiter_acquire s now n).2.tokens =
        (if n ≤ min s.capacity (s.tokens + (now - s.last_update) * s.rate)
         then min s.capacity (s.tokens + (now - s.last_update) * s.rate) - n
         else min s.capacity (s.tokens + (now - s.last_update) * s.rate)) ∧
      (limiter_acquire s now n).2.last_update = now) ∧
    (limiter_acquireRun (TokenBucketRateLimiter_init 10 10 0)
        (List.replicate 11 0 ++ [w, w])).1 =
      List.replicate 10 true ++ [false, true, false] := by
  constructor
  · intro s now n
    unfold limiter_acquire limiter_refill
    by_cases h : n ≤ min s.capacity (s.tokens + (now - s.last_update) * s.rate)
    · simp [h]
    · simp [h]
  · have hsplit := limiter_acquireRun_append (List.replicate 11 0) [w, w]
      (TokenBucketRateLimiter_init 10 10 0)
    have h11 : (List.replicate 11 (0:ℚ)) = List.replicate 10 0 ++ [0] := by
      simp [← List.replicate_succ']
    have hdrain := limiter_drain 10 (by omega) (TokenBucketRateLimiter_init 10 10 0)
      rfl rfl rfl (by norm_num [TokenBucketRateLimiter_init])
    have hsplit10 := limiter_acquireRun_append (List.replicate 10 0) [0]
      (TokenBucketRateLimiter_init 10 10 0)
    have hA : limiter_acquire
        { rate := 10, capacity := 10, tokens := 0, last_update := 0 } 0 1 =
        (false, { rate := 10, capacity := 10, tokens := 0, last_update := 0 }) := by
      unfold limiter_acquire limiter_refill
      norm_num
    have hB : limiter_acquire
        { rate := 10, capacity := 10, tokens := 0, last_update := 0 } w 1 =
        (true, { rate := 10, capacity := 10, tokens := w * 10 - 1, last_update := w }) := by
      unfold limiter_acquire limiter_refill
      have he : (0:ℚ) + (w - 0) * 10 = w * 10 := by ring
      simp only [he]
      rw [min_eq_right (by linarith), if_pos (by linarith)]
    have hC : limiter_acquire
        { rate := 10, capacity := 10, tokens := w * 10 - 1, last_update := w } w 1 =
        (false, { rate := 10, capacity := 10, tokens := w * 10 - 1, last_update := w }) := by
      unfold limiter_acquire limiter_refill
      have he : w * 10 - 1 + (w - w) * 10 = w * 10 - 1 := by ring
      simp only [he]
      rw [min_eq_right (by linarith), if_neg (by intro hcon; linarith)]
    have hrun10 : limiter_acquireRun (TokenBucketRateLimiter_init 10 10 0) (List.replicate 11 0) =
        (List.replicate 10 true ++ [false],
         { rate := 10, capacity := 10, tokens := 0, last_update := 0 }) := by
      rw [h11, hsplit10, hdrain]
      simp [limiter_acquireRun, hA]
    rw [hsplit, hrun10]
    simp only [limiter_acquireRun, hB, hC]
    simp

/-! ## Theorems for claims C6 and C10 -/

theorem get_bar_start_aligned (t i : Nat) : i ∣ get_bar_start t i % 86400 := by
  have hval : get_bar_start t i = t / 86400 * 86400 + (t - t / 86400 * 86400) / i * i := rfl
  have hsub : t - t / 86400 * 86400 = t % 86400 := by omega
  have hlt : t % 86400 / i * i < 86400 := by
    have h1 : t % 86400 / i * i ≤ t % 86400 := Nat.div_mul_le_self _ _
    have h2 : t % 86400 < 86400 := Nat.mod_lt _ (by norm_num)
    omega
  have hmod : get_bar_start t i % 86400 = t % 86400 / i * i := by
    rw [hval, hsub]
    omega
  rw [hmod]
  exact dvd_mul_left i _

theorem lookupBar_mem {k : String × Nat} {b : Bar} :
    ∀ {bars : BarMap}, lookupBar k bars = some b → (k, b) ∈ bars := by
  intro bars
  induction bars with
  | nil => intro h; simp [lookupBar] at h
  | cons kb rest ih =>
    intro h
    obtain ⟨k2, b2⟩ := kb
    rw [lookupBar] at h
    by_cases hk : k2 = k
    · rw [if_pos hk] at h
      subst hk
      simp at h
      simp [h]
    · rw [if_neg hk] at h
      exact List.mem_cons_of_mem _ (ih h)

theorem setBar_mem {k : String × Nat} {b : Bar} {kb : (String × Nat) × Bar} :
    ∀ {bars : BarMap}, kb ∈ setBar k b bars → kb = (k, b) ∨ kb ∈ bars := by
  intro bars
  induction bars with
  | nil => intro h; simp [setBar] at h; simp [h]
  | cons kb2 rest ih =>
    intro h
    obtain ⟨k2, b2⟩ := kb2
    rw [setBar] at h
    by_cases hk : k2 = k
    · rw [if_pos hk] at h
      rcases List.mem_cons.1 h with h | h
      · exact Or.inl h
      · exact Or.inr (List.mem_cons_of_mem _ h)
    · rw [if_neg hk] at h
      rcases List.mem_cons.1 h with h | h
      · exact Or.inr (by simp [h])
      · rcases ih h with h | h
        · exact Or.inl h
        · exact Or.inr (List.mem_cons_of_mem _ h)

theorem new_bar_wf (symbol : String) (time interval : Nat) (price : ℚ) (volume : Int) :
    bar_wf (new_bar symbol (get_bar_start time interval) interval price volume) := by
  refine ⟨?_, ?_, ?_, ?_⟩ <;> simp [new_bar]
  exact get_bar_start_aligned time interval

theorem updated_bar_wf (cur : Bar) (ltp : ℚ) (volume : Int) (hcur : bar_wf cur) :
    bar_wf { cur with
      high := max cur.high ltp, low := min cur.low ltp, close := ltp,
      volume := cur.volume + volume, tick_count := cur.tick_count + 1 } := by
  obtain ⟨hl, hh, hc, hd⟩ := hcur
  refine ⟨?_, ?_, ?_, ?_⟩
  · simp only
    have h1 : min cur.low ltp ≤ cur.open_ :=
      calc min cur.low ltp ≤ cur.low := min_le_left _ _
        _ ≤ min cur.open_ cur.close := hl
        _ ≤ cur.open_ := min_le_left _ _
    exact le_min h1 (min_le_right _ _)
  · simp only
    have h1 : cur.open_ ≤ max cur.high ltp :=
      calc cur.open_ ≤ max cur.open_ cur.close := le_max_left _ _
        _ ≤ cur.high := hh
        _ ≤ max cur.high ltp := le_max_left _ _
    exact max_le h1 (le_max_right _ _)
  · simp only
    omega
  · simpa using hd

theorem on_tick_interval_none (symbol : String) (ltp : ℚ) (volume : Int) (time interval : Nat)
    (bars : BarMap) (hlk : lookupBar (symbol, interval) bars = none) :
    on_tick_interval symbol ltp volume time interval bars =
      (setBar (symbol, interval)
        (new_bar symbol (get_bar_start time interval) interval ltp volume) bars, []) := by
  simp only [on_tick_interval]
  rw [hlk]

theorem on_tick_interval_roll (symbol : String) (ltp : ℚ) (volume : Int) (time interval : Nat)
    (bars : BarMap) (cur : Bar) (hlk : lookupBar (symbol, interval) bars = some cur)
    (hroll : cur.bar_start < get_bar_start time interval) :
    on_tick_interval symbol ltp volume time interval bars =
      (setBar (symbol, interval)
        (new_bar symbol (get_bar_start time interval) interval ltp volume) bars, [cur]) := by
  simp only [on_tick_interval]
  rw [hlk]
  simp only [if_pos hroll]

theorem on_tick_interval_update (symbol : String) (ltp : ℚ) (volume : Int) (time interval : Nat)
    (bars : BarMap) (cur : Bar) (hlk : lookupBar (symbol, interval) bars = some cur)
    (hroll : ¬ cur.bar_start < get_bar_start time interval) :
    on_tick_interval symbol ltp volume time interval bars =
      (setBar (symbol, interval)
        { cur with
          high := max cur.high ltp, low := min cur.low ltp, close := ltp,
          volume := cur.volume + volume, tick_count := cur.tick_count + 1 } bars, []) := by
  simp only [on_tick_interval]
  rw [hlk]
  simp only [if_neg hroll]

theorem on_tick_interval_wf (symbol : String) (ltp : ℚ) (volume : Int) (time interval : Nat)
    (bars : BarMap) (hinv : ∀ kb ∈ bars, bar_wf kb.2) :
    (∀ kb ∈ (on_tick_interval symbol ltp volume time interval bars).1, bar_wf kb.2) ∧
    (∀ b ∈ (on_tick_interval symbol ltp volume time interval bars).2, bar_wf b) := by
  cases hlk : lookupBar (symbol, interval) bars with
  | none =>
    rw [on_tick_interval_none symbol ltp volume time interval bars hlk]
    refine ⟨?_, by simp⟩
    intro kb hkb
    rcases setBar_mem hkb with h | h
    · rw [h]; exact new_bar_wf _ _ _ _ _
    · exact hinv kb h
  | some cur =>
    have hmem : ((symbol, interval), cur) ∈ bars := lookupBar_mem hlk
    have hcur : bar_wf cur := hinv ((symbol, interval), cur) hmem
    by_cases hroll : cur.bar_start < get_bar_start time interval
    · rw [on_tick_interval_roll symbol ltp volume time interval bars cur hlk hroll]
      refine ⟨?_, ?_⟩
      · intro kb hkb
        rcases setBar_mem hkb with h | h
        · rw [h]; exact new_bar_wf _ _ _ _ _
        · exact hinv kb h
      · intro b hb
        simp only [List.mem_singleton] at hb
        rw [hb]
        exact hcur
    · rw [on_tick_interval_update symbol ltp volume time interval bars cur hlk hroll]
      refine ⟨?_, by simp⟩
      intro kb hkb
      rcases setBar_mem hkb with h | h
      · rw [h]
        exact updated_bar_wf cur ltp volume hcur
      · exact hinv kb h

theorem on_tick_wf (a : BarAggregator) (t : NTick) (hinv : ∀ kb ∈ a.bars, bar_wf kb.2) :
    (∀ kb ∈ (on_tick a t).1.bars, bar_wf kb.2) ∧ (∀ b ∈ (on_tick a t).2, bar_wf b) := by
  unfold on_tick
  by_cases hltp : t.ltp ≤ 0
  · simp only [if_pos hltp]
    exact ⟨hinv, by simp⟩
  · simp only [if_neg hltp]
    suffices h : ∀ (ivs : List Nat) (acc : BarMap × List Bar),
        (∀ kb ∈ acc.1, bar_wf kb.2) → (∀ b ∈ acc.2, bar_wf b) →
        (∀ kb ∈ (ivs.foldl
            (fun acc i =>
              let step := on_tick_interval t.symbol t.ltp t.volume t.time i acc.1
              (step.1, acc.2 ++ step.2)) acc).1, bar_wf kb.2) ∧
        (∀ b ∈ (ivs.foldl
            (fun acc i =>
              let step := on_tick_interval t.symbol t.ltp t.volume t.time i acc.1
              (step.1, acc.2 ++ step.2)) acc).2, bar_wf b) by
      exact h a.intervals (a.bars, []) hinv (by simp)
    intro ivs
    induction ivs with
    | nil => intro acc h1 h2; exact ⟨h1, h2⟩
    | cons i rest ih =>
      intro acc h1 h2
      simp only [List.foldl_cons]
      obtain ⟨g1, g2⟩ := on_tick_interval_wf t.symbol t.ltp t.volume t.time i acc.1 h1
      exact ih _ g1 (by
        intro b hb
        rcases List.mem_append.1 hb with h | h
        · exact h2 b h
        · exact g2 b h)

theorem run_ticks_wf (ticks : List NTick) :
    ∀ a : BarAggregator, (∀ kb ∈ a.bars, bar_wf kb.2) →
    (∀ kb ∈ (run_ticks a ticks).1.bars, bar_wf kb.2) ∧
    (∀ b ∈ (run_ticks a ticks).2, bar_wf b) := by
  induction ticks with
  | nil => intro a hinv; exact ⟨hinv, by simp [run_ticks]⟩
  | cons t ts ih =>
    intro a hinv
    obtain ⟨g1, g2⟩ := on_tick_wf a t hinv
    obtain ⟨r1, r2⟩ := ih (on_tick a t).1 g1
    rw [run_ticks]
    refine ⟨r1, ?_⟩
    intro b hb
    rcases List.mem_append.1 hb with h | h
    · exact g2 b h
    · exact r2 b h

/-- C6: every bar emitted by a `BarAggregator` over any tick stream — on
bucket closure or by `flush` — satisfies
`low ≤ min(open, close) ≤ max(open, close) ≤ high`, has `tick_count ≥ 1`,
and has its bucket start aligned to a multiple of its interval in seconds
since local midnight. -/
theorem C6_emitted_bars_wf (intervals : List Nat) (ticks : List NTick) (b : Bar)
    (hb : b ∈ (run_ticks (BarAggregator_init intervals) ticks).2 ++
          (flush (run_ticks (BarAggregator_init intervals) ticks).1).2) :
    b.low ≤ min b.open_ b.close ∧ max b.open_ b.close ≤ b.high ∧
    1 ≤ b.tick_count ∧ b.interval_seconds ∣ b.bar_start % 86400 := by
  obtain ⟨h1, h2⟩ := run_ticks_wf ticks (BarAggregator_init intervals)
    (by simp [BarAggregator_init])
  rcases List.mem_append.1 hb with h | h
  · exact h2 b h
  · simp only [flush, List.mem_map] at h
    obtain ⟨kb, hkb, hEq⟩ := h
    rw [← hEq]
    exact h1 kb hkb

theorem C6_emitted_bars_wf_witness :
    exBar6.low ≤ min exBar6.open_ exBar6.close ∧
    max exBar6.open_ exBar6.close ≤ exBar6.high ∧
    1 ≤ exBar6.tick_count ∧ exBar6.interval_seconds ∣ exBar6.bar_start % 86400 :=
  C6_emitted_bars_wf [60] exTicks6 exBar6 (by decide)

/-- C10: when `on_tick` sees a tick for a (symbol, interval) that already has
an open bar, it emits only if the tick's bucket start is strictly later than
the open bar's; a tick whose bucket start is equal or earlier (including an
out-of-order timestamp from a past bucket) is folded into the open bar —
updating high, low, close, volume and tick_count — and emits nothing. -/
theorem C10_existing_bucket (bars : BarMap) (interval : Nat) (t : NTick) (cur : Bar)
    (hltp : 0 < t.ltp)
    (hlk : lookupBar (t.symbol, interval) bars = some cur) :
    (get_bar_start t.time interval ≤ cur.bar_start →
      on_tick { intervals := [interval], bars := bars } t =
        ({ intervals := [interval],
           bars := setBar (t.symbol, interval)
             { cur with
                 high := max cur.high t.ltp,
                 low := min cur.low t.ltp,
                 close := t.ltp,
                 volume := cur.volume + t.volume,
                 tick_count := cur.tick_count + 1 } bars }, [])) ∧
    (cur.bar_start < get_bar_start t.time interval →
      on_tick { intervals := [interval], bars := bars } t =
        ({ intervals := [interval],
           bars := setBar (t.symbol, interval)
             (new_bar t.symbol (get_bar_start t.time interval) interval t.ltp t.volume) bars },
         [cur])) := by
  have hnle : ¬ t.ltp ≤ 0 := not_le.2 hltp
  constructor
  · intro hle
    have hroll : ¬ cur.bar_start < get_bar_start t.time interval := not_lt.2 hle
    unfold on_tick
    rw [if_neg hnle]
    simp [on_tick_interval_update t.symbol t.ltp t.volume t.time interval bars cur hlk hroll]
  · intro hlt
    unfold on_tick
    rw [if_neg hnle]
    simp [on_tick_interval_roll t.symbol t.ltp t.volume t.time interval bars cur hlk hlt]

theorem C10_existing_bucket_witness :
    on_tick { intervals := [60], bars := exBars10 } exTick10 =
      ({ intervals := [60],
         bars := setBar ("X", 60)
           { exBar10 with
               high := max exBar10.high 8,
               low := min exBar10.low 8,
               close := 8,
               volume := exBar10.volume + 2,
               tick_count := exBar10.tick_count + 1 } exBars10 },
       []) :=
  (C10_existing_bucket exBars10 60 exTick10 exBar10 (by decide) (by decide)).1 (by decide)

/-! ## Theorems for claims C7 and C8 -/

theorem eventCountFor_nil (o : Nat) : eventCountFor o [] = 0 := rfl

theorem eventCountFor_cons (o : Nat) (e : OrderEvent) (evs : List OrderEvent) :
    eventCountFor o (e :: evs) =
      (if e.gtt_id = o then 1 else 0) + eventCountFor o evs := by
  simp only [eventCountFor, List.filter_cons]
  by_cases h : e.gtt_id = o <;> simp [h, Nat.add_comm]

theorem eventCountFor_append (o : Nat) (l1 l2 : List OrderEvent) :
    eventCountFor o (l1 ++ l2) = eventCountFor o l1 + eventCountFor o l2 := by
  simp [eventCountFor, List.filter_append]

theorem cancel_gtt_map_id (orders : List GTTOrder) (pid : Nat) :
    (cancel_gtt orders pid).map GTTOrder.id = orders.map GTTOrder.id := by
  unfold cancel_gtt
  rw [List.map_map]
  apply List.map_congr_left
  intro g _
  by_cases h : g.id = pid ∧ g.status = GttStatus.ACTIVE <;> simp [h]

theorem cancel_gtt_getElem? (orders : List GTTOrder) (pid j : Nat) :
    (cancel_gtt orders pid)[j]? = (orders[j]?).map fun g =>
      if g.id = pid ∧ g.status = GttStatus.ACTIVE then
        { g with status := GttStatus.CANCELLED } else g := by
  unfold cancel_gtt
  rw [List.getElem?_map]

theorem set_self_getElem? {α : Type} : ∀ {l : List α} {i : Nat} {x : α},
    l[i]? = some x → l.set i x = l := by
  intro l
  induction l with
  | nil => intro i x h; simp at h
  | cons a rest ih =>
    intro i x h
    cases i with
    | zero => simp at h; simp [h]
    | succ n =>
      simp only [List.getElem?_cons_succ] at h
      simp [List.set_cons_succ, ih h]

theorem set_map_id {orders : List GTTOrder} {i : Nat} {g g2 : GTTOrder}
    (hi : orders[i]? = some g) (hid : g2.id = g.id) :
    (orders.set i g2).map GTTOrder.id = orders.map GTTOrder.id := by
  rw [List.map_set]
  apply set_self_getElem?
  rw [List.getElem?_map, hi]
  simp [hid]

theorem fire_update_map_id (oco : List (Nat × Nat)) {orders : List GTTOrder} {i : Nat}
    {g : GTTOrder} (hi : orders[i]? = some g) :
    (fire_update oco orders i g).map GTTOrder.id = orders.map GTTOrder.id := by
  unfold fire_update
  cases oco_lookup oco g.id with
  | none => exact set_map_id hi rfl
  | some pid => rw [cancel_gtt_map_id]; exact set_map_id hi rfl

theorem fire_update_getElem?_self (oco : List (Nat × Nat)) {orders : List GTTOrder} {i : Nat}
    {g : GTTOrder} (hi : orders[i]? = some g) :
    (fire_update oco orders i g)[i]? = some { g with status := GttStatus.TRIGGERED } := by
  have hlt : i < orders.length := by
    obtain ⟨h, _⟩ := List.getElem?_eq_some.1 hi
    exact h
  have hset : (orders.set i { g with status := GttStatus.TRIGGERED })[i]? =
      some { g with status := GttStatus.TRIGGERED } :=
    List.getElem?_set_self (by simpa using hlt)
  unfold fire_update
  cases oco_lookup oco g.id with
  | none => exact hset
  | some pid =>
    rw [cancel_gtt_getElem?, hset]
    simp

theorem fire_update_getElem?_other (oco : List (Nat × Nat)) {orders : List GTTOrder}
    {i j : Nat} {g : GTTOrder} (hne : i ≠ j) :
    (fire_update oco orders i g)[j]? =
      match oco_lookup oco g.id with
      | some pid => (orders[j]?).map fun h =>
          if h.id = pid ∧ h.status = GttStatus.ACTIVE then
            { h with status := GttStatus.CANCELLED } else h
      | none => orders[j]? := by
  unfold fire_update
  cases oco_lookup oco g.id with
  | none => exact List.getElem?_set_ne hne
  | some pid => rw [cancel_gtt_getElem?, List.getElem?_set_ne hne]

theorem ctf_zero (oco : List (Nat × Nat)) (sym : String) (p : ℚ) (orders : List GTTOrder)
    (i : Nat) : check_triggers_from oco sym p orders i 0 = (orders, []) := rfl

theorem ctf_none (oco : List (Nat × Nat)) (sym : String) (p : ℚ) (orders : List GTTOrder)
    (i fuel : Nat) (h : orders[i]? = none) :
    check_triggers_from oco sym p orders i (fuel + 1) = (orders, []) := by
  simp only [check_triggers_from]
  rw [h]

theorem ctf_skip (oco : List (Nat × Nat)) (sym : String) (p : ℚ) (orders : List GTTOrder)
    (i fuel : Nat) (g : GTTOrder) (hoi : orders[i]? = some g)
    (hc : ¬ (g.symbol = sym ∧ g.status = GttStatus.ACTIVE ∧ check_trigger g p)) :
    check_triggers_from oco sym p orders i (fuel + 1) =
      check_triggers_from oco sym p orders (i + 1) fuel := by
  simp only [check_triggers_from]
  rw [hoi]
  simp only [if_neg hc]

theorem ctf_fire (oco : List (Nat × Nat)) (sym : String) (p : ℚ) (orders : List GTTOrder)
    (i fuel : Nat) (g : GTTOrder) (hoi : orders[i]? = some g)
    (hc : g.symbol = sym ∧ g.status = GttStatus.ACTIVE ∧ check_trigger g p) :
    check_triggers_from oco sym p orders i (fuel + 1) =
      ((check_triggers_from oco sym p (fire_update oco orders i g) (i + 1) fuel).1,
       fire_event g ::
         (check_triggers_from oco sym p (fire_update oco orders i g) (i + 1) fuel).2) := by
  simp only [check_triggers_from]
  rw [hoi]
  simp only [if_pos hc]

theorem ids_ne_of_ne_pos {orders : List GTTOrder} {i j : Nat} {gi g : GTTOrder}
    (hnd : (orders.map GTTOrder.id).Nodup) (hoi : orders[i]? = some gi)
    (hj : orders[j]? = some g) (hij : i ≠ j) : gi.id ≠ g.id := by
  intro hEq
  apply hij
  have hmi : (orders.map GTTOrder.id)[i]? = some gi.id := by
    rw [List.getElem?_map, hoi]; rfl
  have hmj : (orders.map GTTOrder.id)[j]? = some g.id := by
    rw [List.getElem?_map, hj]; rfl
  have hlt : i < (orders.map GTTOrder.id).length := by
    obtain ⟨h, _⟩ := List.getElem?_eq_some.1 hmi
    exact h
  exact List.getElem?_inj hlt hnd (by rw [hmi, hmj, hEq])

theorem check_triggers_from_track (oco : List (Nat × Nat)) (sym : String) (p : ℚ) (j : Nat) :
    ∀ (fuel : Nat) (i : Nat) (orders : List GTTOrder) (g : GTTOrder),
      (orders.map GTTOrder.id).Nodup →
      orders[j]? = some g →
      ((check_triggers_from oco sym p orders i fuel).1.map GTTOrder.id =
        orders.map GTTOrder.id) ∧
      ∃ g2, (check_triggers_from oco sym p orders i fuel).1[j]? = some g2 ∧ g2.id = g.id ∧
        eventCountFor g.id (check_triggers_from oco sym p orders i fuel).2 ≤ 1 ∧
        (g.status ≠ GttStatus.ACTIVE →
          g2 = g ∧ eventCountFor g.id (check_triggers_from oco sym p orders i fuel).2 = 0) ∧
        (g2.status = GttStatus.ACTIVE →
          g2 = g ∧ eventCountFor g.id (check_triggers_from oco sym p orders i fuel).2 = 0) ∧
        (eventCountFor g.id (check_triggers_from oco sym p orders i fuel).2 = 1 →
          g2.status = GttStatus.TRIGGERED) := by
  intro fuel
  induction fuel with
  | zero =>
    intro i orders g hnd hj
    rw [ctf_zero]
    exact ⟨rfl, g, hj, rfl, by simp [eventCountFor_nil],
      fun _ => ⟨rfl, rfl⟩, fun _ => ⟨rfl, rfl⟩, by simp [eventCountFor_nil]⟩
  | succ fuel ih =>
    intro i orders g hnd hj
    cases hoi : orders[i]? with
    | none =>
      rw [ctf_none oco sym p orders i fuel hoi]
      exact ⟨rfl, g, hj, rfl, by simp [eventCountFor_nil],
        fun _ => ⟨rfl, rfl⟩, fun _ => ⟨rfl, rfl⟩, by simp [eventCountFor_nil]⟩
    | some gi =>
      by_cases hc : gi.symbol = sym ∧ gi.status = GttStatus.ACTIVE ∧ check_trigger gi p
      · -- the order at position i fires
        rw [ctf_fire oco sym p orders i fuel gi hoi hc]
        have hmap2 : (fire_update oco orders i gi).map GTTOrder.id =
            orders.map GTTOrder.id := fire_update_map_id oco hoi
        have hnd2 : ((fire_update oco orders i gi).map GTTOrder.id).Nodup := by
          rw [hmap2]; exact hnd
        by_cases hij : i = j
        · -- our tracked order is the one firing
          subst hij
          have hgi : gi = g := by
            rw [hoi] at hj
            exact Option.some.inj hj
          subst hgi
          have hj2 : (fire_update oco orders i gi)[i]? =
              some { gi with status := GttStatus.TRIGGERED } :=
            fire_update_getElem?_self oco hoi
          obtain ⟨hmap3, g3, hj3, hid3, _, habs3, _, _⟩ :=
            ih (i + 1) (fire_update oco orders i gi)
              { gi with status := GttStatus.TRIGGERED } hnd2 hj2
          have hnact : ({ gi with status := GttStatus.TRIGGERED } : GTTOrder).status ≠
              GttStatus.ACTIVE := by simp
          obtain ⟨hg3eq, hcnt3⟩ := habs3 hnact
          rw [hg3eq] at hj3
          have hcnt3a : eventCountFor gi.id
              (check_triggers_from oco sym p (fire_update oco orders i gi) (i + 1) fuel).2
              = 0 := hcnt3
          refine ⟨by rw [hmap3, hmap2], { gi with status := GttStatus.TRIGGERED },
            hj3, rfl, ?_, ?_, ?_, ?_⟩
          · rw [eventCountFor_cons]
            rw [if_pos (show (fire_event gi).gtt_id = gi.id from rfl)]
            omega
          · intro hna
            exact absurd hc.2.1 hna
          · intro hact
            exact absurd hact (by simp)
          · intro _
            rfl
        · -- some other order fires; ours may at most be OCO-cancelled
          have hne_id : gi.id ≠ g.id := ids_ne_of_ne_pos hnd hoi hj hij
          -- the tracked entry after the fire update
          have hj2 : ∃ g2, (fire_update oco orders i gi)[j]? = some g2 ∧ g2.id = g.id ∧
              (g2.status = GttStatus.ACTIVE → g2 = g) ∧
              (g.status ≠ GttStatus.ACTIVE → g2 = g) := by
            rw [fire_update_getElem?_other oco hij]
            cases oco_lookup oco gi.id with
            | none => exact ⟨g, by rw [hj], rfl, fun _ => rfl, fun _ => rfl⟩
            | some pid =>
              rw [hj]
              by_cases hcg : g.id = pid ∧ g.status = GttStatus.ACTIVE
              · refine ⟨{ g with status := GttStatus.CANCELLED },
                  by simp [hcg.1, hcg.2], rfl, ?_, ?_⟩
                · intro h; exact absurd h (by simp)
                · intro h; exact absurd hcg.2 h
              · exact ⟨g, by simp [hcg], rfl, fun _ => rfl, fun _ => rfl⟩
          obtain ⟨g2, hj2e, hid2, hact2, habs2⟩ := hj2
          obtain ⟨hmap3, g3, hj3, hid3, hcnt3, habs3, hact3, htrig3⟩ :=
            ih (i + 1) (fire_update oco orders i gi) g2 hnd2 hj2e
          rw [hid2] at hcnt3 habs3 hact3 htrig3
          have hevne : (fire_event gi).gtt_id ≠ g.id := hne_id
          refine ⟨by rw [hmap3, hmap2], g3, hj3, by rw [hid3, hid2], ?_, ?_, ?_, ?_⟩
          · rw [eventCountFor_cons]
            simp only [if_neg hevne]
            omega
          · intro hna
            have hg2 : g2 = g := habs2 hna
            rw [hg2] at habs3
            obtain ⟨h1, h2⟩ := habs3 hna
            rw [eventCountFor_cons]
            simp only [if_neg hevne]
            exact ⟨h1, by omega⟩
          · intro hact
            obtain ⟨h1, h2⟩ := hact3 hact
            have hg2act : g2.status = GttStatus.ACTIVE := by rw [← h1]; exact hact
            have hg2 : g2 = g := hact2 hg2act
            rw [eventCountFor_cons]
            simp only [if_neg hevne]
            exact ⟨by rw [h1, hg2], by omega⟩
          · intro hone
            rw [eventCountFor_cons] at hone
            simp only [if_neg hevne] at hone
            exact htrig3 (by omega)
      · -- guard fails: loop continues unchanged
        rw [ctf_skip oco sym p orders i fuel gi hoi hc]
        exact ih (i + 1) orders g hnd hj

theorem run_price_checks_track (checks : List (String × ℚ)) :
    ∀ (m : AdvancedOrderManager) (j : Nat) (g : GTTOrder),
      (m.gtt_orders.map GTTOrder.id).Nodup →
      m.gtt_orders[j]? = some g →
      ((run_price_checks m checks).1.gtt_orders.map GTTOrder.id =
        m.gtt_orders.map GTTOrder.id) ∧
      ∃ g2, (run_price_checks m checks).1.gtt_orders[j]? = some g2 ∧ g2.id = g.id ∧
        eventCountFor g.id (run_price_checks m checks).2 ≤ 1 ∧
        (g.status ≠ GttStatus.ACTIVE →
          g2 = g ∧ eventCountFor g.id (run_price_checks m checks).2 = 0) ∧
        (g2.status = GttStatus.ACTIVE →
          g2 = g ∧ eventCountFor g.id (run_price_checks m checks).2 = 0) := by
  induction checks with
  | nil =>
    intro m j g hnd hj
    exact ⟨rfl, g, hj, rfl, by simp [run_price_checks, eventCountFor_nil],
      fun _ => ⟨rfl, rfl⟩, fun _ => ⟨rfl, rfl⟩⟩
  | cons c rest ih =>
    intro m j g hnd hj
    obtain ⟨s, p⟩ := c
    have hrun : run_price_checks m ((s, p) :: rest) =
        ((run_price_checks (check_triggers m s p).1 rest).1,
         (check_triggers m s p).2 ++ (run_price_checks (check_triggers m s p).1 rest).2) := rfl
    have hm1o : (check_triggers m s p).1.gtt_orders =
        (check_triggers_from m.oco_pairs s p m.gtt_orders 0 m.gtt_orders.length).1 := rfl
    have hm1e : (check_triggers m s p).2 =
        (check_triggers_from m.oco_pairs s p m.gtt_orders 0 m.gtt_orders.length).2 := rfl
    obtain ⟨hmapP, gP, hjP, hidP, hcntP, habsP, hactP, _⟩ :=
      check_triggers_from_track m.oco_pairs s p j m.gtt_orders.length 0 m.gtt_orders g hnd hj
    obtain ⟨hmapR, g3, hj3, hid3, hcntR, habsR, hactR⟩ :=
      ih (check_triggers m s p).1 j gP (by rw [hm1o, hmapP]; exact hnd) (by rw [hm1o]; exact hjP)
    rw [hidP] at hcntR habsR hactR
    rw [hrun]
    refine ⟨?_, g3, hj3, by rw [hid3, hidP], ?_, ?_, ?_⟩
    · simp only at hmapR ⊢
      rw [hmapR, hm1o, hmapP]
    · simp only [eventCountFor_append, hm1e]
      by_cases hact : gP.status = GttStatus.ACTIVE
      · obtain ⟨_, h2⟩ := hactP hact
        omega
      · obtain ⟨_, h2⟩ := habsR hact
        omega
    · intro hna
      obtain ⟨hgPg, h0P⟩ := habsP hna
      have hgPna : gP.status ≠ GttStatus.ACTIVE := by rw [hgPg]; exact hna
      obtain ⟨hg3gP, h0R⟩ := habsR hgPna
      simp only [eventCountFor_append, hm1e]
      exact ⟨by rw [hg3gP, hgPg], by omega⟩
    · intro hact3
      obtain ⟨hg3gP, h0R⟩ := hactR hact3
      have hgPact : gP.status = GttStatus.ACTIVE := by rw [← hg3gP]; exact hact3
      obtain ⟨hgPg, h0P⟩ := hactP hgPact
      simp only [eventCountFor_append, hm1e]
      exact ⟨by rw [hg3gP, hgPg], by omega⟩

/-- C7: `check_trigger` fires exactly when the order is ACTIVE and the price
satisfies its GTE/LTE condition relative to the trigger price; and over any
sequence of price checks a given order produces at most one order-submission
event — after its first firing it is TRIGGERED and never fires again. -/
theorem C7_gtt_fire_semantics :
    (∀ (g : GTTOrder) (price : ℚ),
      check_trigger g price = true ↔
        (g.status = GttStatus.ACTIVE ∧
          ((g.condition = "GTE" ∧ g.trigger_price ≤ price) ∨
           (g.condition = "LTE" ∧ price ≤ g.trigger_price)))) ∧
    (∀ (m : AdvancedOrderManager) (checks : List (String × ℚ)) (j : Nat) (g : GTTOrder),
      (m.gtt_orders.map GTTOrder.id).Nodup →
      m.gtt_orders[j]? = some g →
      eventCountFor g.id (run_price_checks m checks).2 ≤ 1) := by
  constructor
  · intro g price
    unfold check_trigger
    by_cases h1 : g.status ≠ GttStatus.ACTIVE
    · simp [h1]
    · push_neg at h1
      by_cases h2 : g.condition = "GTE" ∧ g.trigger_price ≤ price
      · simp [h1, h2]
      · by_cases h3 : g.condition = "LTE" ∧ price ≤ g.trigger_price
        · simp [h1, h2, h3]
        · simp [h1, h2, h3]
  · intro m checks j g hnd hj
    obtain ⟨_, _, _, _, hcnt, _, _⟩ := run_price_checks_track checks m j g hnd hj
    exact hcnt

theorem C7_gtt_fire_semantics_witness :
    eventCountFor 7 (run_price_checks mExC7 checksExC7).2 ≤ 1 :=
  C7_gtt_fire_semantics.2 mExC7 checksExC7 0 gttEx (by decide) (by decide)

theorem fire_update_track_other (oco : List (Nat × Nat)) {orders : List GTTOrder}
    {i jx : Nat} (gi : GTTOrder) {gx : GTTOrder} (hne : i ≠ jx)
    (hjx : orders[jx]? = some gx) :
    ∃ gx2, (fire_update oco orders i gi)[jx]? = some gx2 ∧
      (gx2 = gx ∨ (gx.status = GttStatus.ACTIVE ∧
        gx2 = { gx with status := GttStatus.CANCELLED })) := by
  rw [fire_update_getElem?_other oco hne]
  cases oco_lookup oco gi.id with
  | none => exact ⟨gx, by rw [hjx], Or.inl rfl⟩
  | some pid =>
    rw [hjx]
    by_cases hcg : gx.id = pid ∧ gx.status = GttStatus.ACTIVE
    · exact ⟨{ gx with status := GttStatus.CANCELLED },
        by simp [hcg.1, hcg.2], Or.inr ⟨hcg.2, rfl⟩⟩
    · exact ⟨gx, by simp [hcg], Or.inl rfl⟩


theorem fire_update_partner (oco : List (Nat × Nat)) {orders : List GTTOrder}
    {i j : Nat} {gi gx : GTTOrder} {pid : Nat} (hne : i ≠ j)
    (hjx : orders[j]? = some gx) (hlk : oco_lookup oco gi.id = some pid)
    (hid : gx.id = pid) :
    (fire_update oco orders i gi)[j]? =
      some (if gx.status = GttStatus.ACTIVE then
        { gx with status := GttStatus.CANCELLED } else gx) := by
  simp only [fire_update]
  rw [hlk]
  show (cancel_gtt (orders.set i { gi with status := GttStatus.TRIGGERED }) pid)[j]? = _
  rw [cancel_gtt_getElem?, List.getElem?_set_ne hne, hjx]
  by_cases hst : gx.status = GttStatus.ACTIVE
  · simp [hid, hst]
  · simp [hid, hst]

theorem check_triggers_from_oco (oco : List (Nat × Nat)) (sym : String) (p : ℚ)
    (tid sid jT jS : Nat) (hts : tid ≠ sid) (hjTS : jT ≠ jS)
    (hT : oco_lookup oco tid = some sid) (hS : oco_lookup oco sid = some tid) :
    ∀ (fuel i : Nat) (orders : List GTTOrder) (a b : Nat),
      (orders.map GTTOrder.id).Nodup →
      oco_pair_state orders jT jS tid sid a b →
      ((check_triggers_from oco sym p orders i fuel).1.map GTTOrder.id =
        orders.map GTTOrder.id) ∧
      oco_pair_state (check_triggers_from oco sym p orders i fuel).1 jT jS tid sid
        (a + eventCountFor tid (check_triggers_from oco sym p orders i fuel).2)
        (b + eventCountFor sid (check_triggers_from oco sym p orders i fuel).2) := by
  intro fuel
  induction fuel with
  | zero =>
    intro i orders a b hnd hinv
    rw [ctf_zero]
    refine ⟨rfl, ?_⟩
    simpa [eventCountFor] using hinv
  | succ fuel ih =>
    intro i orders a b hnd hinv
    cases hoi : orders[i]? with
    | none =>
      rw [ctf_none oco sym p orders i fuel hoi]
      refine ⟨rfl, ?_⟩
      simpa [eventCountFor] using hinv
    | some gi =>
      by_cases hc : gi.symbol = sym ∧ gi.status = GttStatus.ACTIVE ∧ check_trigger gi p
      · -- the order at position i fires
        rw [ctf_fire oco sym p orders i fuel gi hoi hc]
        have hmap2 : (fire_update oco orders i gi).map GTTOrder.id =
            orders.map GTTOrder.id := fire_update_map_id oco hoi
        have hnd2 : ((fire_update oco orders i gi).map GTTOrder.id).Nodup := by
          rw [hmap2]; exact hnd
        obtain ⟨gT, gS, hjT, hjS, hidT, hidS, hdisj⟩ := hinv
        have hact : gi.status = GttStatus.ACTIVE := hc.2.1
        by_cases hiT : i = jT
        · -- the target leg fires
          have hgi : gi = gT := by
            rw [hiT, hjT] at hoi
            exact (Option.some.inj hoi).symm
          have hcase1 : a = 0 ∧ b = 0 ∧ gS.status ≠ GttStatus.TRIGGERED := by
            rw [hgi] at hact
            rcases hdisj with ⟨h1, h2, _, h4⟩ | ⟨_, _, h3, _⟩ | ⟨_, _, _, h4⟩
            · exact ⟨h1, h2, h4⟩
            · rw [h3] at hact; exact absurd hact (by simp)
            · rw [h4] at hact; exact absurd hact (by simp)
          obtain ⟨ha0, hb0, hgSnt⟩ := hcase1
          have hneS : i ≠ jS := by rw [hiT]; exact hjTS
          have hjT2 : (fire_update oco orders i gi)[jT]? =
              some { gi with status := GttStatus.TRIGGERED } := by
            rw [← hiT]; exact fire_update_getElem?_self oco hoi
          have hlkgi : oco_lookup oco gi.id = some sid := by
            rw [hgi, hidT]; exact hT
          have hjS2 : (fire_update oco orders i gi)[jS]? =
              some (if gS.status = GttStatus.ACTIVE then
                { gS with status := GttStatus.CANCELLED } else gS) :=
            fire_update_partner oco hneS hjS hlkgi hidS
          have hgS2st : (if gS.status = GttStatus.ACTIVE then
              { gS with status := GttStatus.CANCELLED } else gS).status =
              GttStatus.CANCELLED := by
            cases hst : gS.status with
            | ACTIVE => simp [hst]
            | TRIGGERED => exact absurd hst hgSnt
            | CANCELLED => simp [hst]
          have hgS2id : (if gS.status = GttStatus.ACTIVE then
              { gS with status := GttStatus.CANCELLED } else gS).id = sid := by
            by_cases hst : gS.status = GttStatus.ACTIVE <;> simp [hst, hidS]
          have hinv2 : oco_pair_state (fire_update oco orders i gi) jT jS tid sid 1 0 :=
            ⟨{ gi with status := GttStatus.TRIGGERED }, _, hjT2, hjS2,
              by simp [hgi, hidT], hgS2id, Or.inr (Or.inl ⟨rfl, rfl, rfl, hgS2st⟩)⟩
          obtain ⟨hmap3, hinv3⟩ := ih (i + 1) (fire_update oco orders i gi) 1 0 hnd2 hinv2
          have hevT : (fire_event gi).gtt_id = tid := by
            show gi.id = tid
            rw [hgi, hidT]
          have hevS : ¬ (fire_event gi).gtt_id = sid := by rw [hevT]; exact hts
          refine ⟨by rw [hmap3, hmap2], ?_⟩
          rw [eventCountFor_cons, eventCountFor_cons, if_pos hevT, if_neg hevS]
          rw [ha0, hb0]
          have heq1 : 0 + (1 + eventCountFor tid
              (check_triggers_from oco sym p (fire_update oco orders i gi) (i + 1) fuel).2) =
              1 + eventCountFor tid
              (check_triggers_from oco sym p (fire_update oco orders i gi) (i + 1) fuel).2 := by
            omega
          have heq2 : 0 + (0 + eventCountFor sid
              (check_triggers_from oco sym p (fire_update oco orders i gi) (i + 1) fuel).2) =
              0 + eventCountFor sid
              (check_triggers_from oco sym p (fire_update oco orders i gi) (i + 1) fuel).2 := by
            omega
          rw [heq1, heq2]
          exact hinv3
        · by_cases hiS : i = jS
          · -- the stop leg fires
            have hgi : gi = gS := by
              rw [hiS, hjS] at hoi
              exact (Option.some.inj hoi).symm
            have hcase1 : a = 0 ∧ b = 0 ∧ gT.status ≠ GttStatus.TRIGGERED := by
              rw [hgi] at hact
              rcases hdisj with ⟨h1, h2, h3, _⟩ | ⟨_, _, _, h4⟩ | ⟨_, _, h3, _⟩
              · exact ⟨h1, h2, h3⟩
              · rw [h4] at hact; exact absurd hact (by simp)
              · rw [h3] at hact; exact absurd hact (by simp)
            obtain ⟨ha0, hb0, hgTnt⟩ := hcase1
            have hneT : i ≠ jT := hiT
            have hjS2 : (fire_update oco orders i gi)[jS]? =
                some { gi with status := GttStatus.TRIGGERED } := by
              rw [← hiS]; exact fire_update_getElem?_self oco hoi
            have hlkgi : oco_lookup oco gi.id = some tid := by
              rw [hgi, hidS]; exact hS
            have hjT2 : (fire_update oco orders i gi)[jT]? =
                some (if gT.status = GttStatus.ACTIVE then
                  { gT with status := GttStatus.CANCELLED } else gT) :=
              fire_update_partner oco hneT hjT hlkgi hidT
            have hgT2st : (if gT.status = GttStatus.ACTIVE then
                { gT with status := GttStatus.CANCELLED } else gT).status =
                GttStatus.CANCELLED := by
              cases hst : gT.status with
              | ACTIVE => simp [hst]
              | TRIGGERED => exact absurd hst hgTnt
              | CANCELLED => simp [hst]
            have hgT2id : (if gT.status = GttStatus.ACTIVE then
                { gT with status := GttStatus.CANCELLED } else gT).id = tid := by
              by_cases hst : gT.status = GttStatus.ACTIVE <;> simp [hst, hidT]
            have hinv2 : oco_pair_state (fire_update oco orders i gi) jT jS tid sid 0 1 :=
              ⟨_, { gi with status := GttStatus.TRIGGERED }, hjT2, hjS2,
                hgT2id, by simp [hgi, hidS], Or.inr (Or.inr ⟨rfl, rfl, rfl, hgT2st⟩)⟩
            obtain ⟨hmap3, hinv3⟩ := ih (i + 1) (fire_update oco orders i gi) 0 1 hnd2 hinv2
            have hevS : (fire_event gi).gtt_id = sid := by
              show gi.id = sid
              rw [hgi, hidS]
            have hevT : ¬ (fire_event gi).gtt_id = tid := by
              rw [hevS]; exact fun h => hts h.symm
            refine ⟨by rw [hmap3, hmap2], ?_⟩
            rw [eventCountFor_cons, eventCountFor_cons, if_pos hevS, if_neg hevT]
            rw [ha0, hb0]
            have heq1 : 0 + (0 + eventCountFor tid
                (check_triggers_from oco sym p (fire_update oco orders i gi) (i + 1) fuel).2) =
                0 + eventCountFor tid
                (check_triggers_from oco sym p (fire_update oco orders i gi) (i + 1) fuel).2 := by
              omega
            have heq2 : 0 + (1 + eventCountFor sid
                (check_triggers_from oco sym p (fire_update oco orders i gi) (i + 1) fuel).2) =
                1 + eventCountFor sid
                (check_triggers_from oco sym p (fire_update oco orders i gi) (i + 1) fuel).2 := by
              omega
            rw [heq1, heq2]
            exact hinv3
          · -- an unrelated order fires; the pair can only be OCO-cancelled
            have hneT : ¬ (fire_event gi).gtt_id = tid := by
              show ¬ gi.id = tid
              have h := ids_ne_of_ne_pos hnd hoi hjT hiT
              rw [hidT] at h; exact h
            have hneS : ¬ (fire_event gi).gtt_id = sid := by
              show ¬ gi.id = sid
              have h := ids_ne_of_ne_pos hnd hoi hjS hiS
              rw [hidS] at h; exact h
            obtain ⟨gT2, hjT2e, hgT2⟩ := fire_update_track_other oco gi hiT hjT
            obtain ⟨gS2, hjS2e, hgS2⟩ := fire_update_track_other oco gi hiS hjS
            have hgT2id : gT2.id = tid := by
              rcases hgT2 with h | ⟨_, h⟩ <;> rw [h] <;> simp [hidT]
            have hgS2id : gS2.id = sid := by
              rcases hgS2 with h | ⟨_, h⟩ <;> rw [h] <;> simp [hidS]
            have hinv2 : oco_pair_state (fire_update oco orders i gi) jT jS tid sid a b := by
              refine ⟨gT2, gS2, hjT2e, hjS2e, hgT2id, hgS2id, ?_⟩
              rcases hdisj with ⟨h1, h2, h3, h4⟩ | ⟨h1, h2, h3, h4⟩ | ⟨h1, h2, h3, h4⟩
              · refine Or.inl ⟨h1, h2, ?_, ?_⟩
                · rcases hgT2 with h | ⟨_, h⟩ <;> rw [h] <;> simp [h3]
                · rcases hgS2 with h | ⟨_, h⟩ <;> rw [h] <;> simp [h4]
              · refine Or.inr (Or.inl ⟨h1, h2, ?_, ?_⟩)
                · rcases hgT2 with h | ⟨hact2, _⟩
                  · rw [h]; exact h3
                  · rw [h3] at hact2; exact absurd hact2 (by simp)
                · rcases hgS2 with h | ⟨hact2, _⟩
                  · rw [h]; exact h4
                  · rw [h4] at hact2; exact absurd hact2 (by simp)
              · refine Or.inr (Or.inr ⟨h1, h2, ?_, ?_⟩)
                · rcases hgS2 with h | ⟨hact2, _⟩
                  · rw [h]; exact h3
                  · rw [h3] at hact2; exact absurd hact2 (by simp)
                · rcases hgT2 with h | ⟨hact2, _⟩
                  · rw [h]; exact h4
                  · rw [h4] at hact2; exact absurd hact2 (by simp)
            obtain ⟨hmap3, hinv3⟩ := ih (i + 1) (fire_update oco orders i gi) a b hnd2 hinv2
            refine ⟨by rw [hmap3, hmap2], ?_⟩
            rw [eventCountFor_cons, eventCountFor_cons, if_neg hneT, if_neg hneS]
            have heq1 : a + (0 + eventCountFor tid
                (check_triggers_from oco sym p (fire_update oco orders i gi) (i + 1) fuel).2) =
                a + eventCountFor tid
                (check_triggers_from oco sym p (fire_update oco orders i gi) (i + 1) fuel).2 := by
              omega
            have heq2 : b + (0 + eventCountFor sid
                (check_triggers_from oco sym p (fire_update oco orders i gi) (i + 1) fuel).2) =
                b + eventCountFor sid
                (check_triggers_from oco sym p (fire_update oco orders i gi) (i + 1) fuel).2 := by
              omega
            rw [heq1, heq2]
            exact hinv3
      · rw [ctf_skip oco sym p orders i fuel gi hoi hc]
        exact ih (i + 1) orders a b hnd hinv

theorem run_price_checks_oco (tid sid jT jS : Nat) (hts : tid ≠ sid) (hjTS : jT ≠ jS)
    (checks : List (String × ℚ)) :
    ∀ (m : AdvancedOrderManager) (a b : Nat),
      (m.gtt_orders.map GTTOrder.id).Nodup →
      oco_lookup m.oco_pairs tid = some sid →
      oco_lookup m.oco_pairs sid = some tid →
      oco_pair_state m.gtt_orders jT jS tid sid a b →
      ((run_price_checks m checks).1.gtt_orders.map GTTOrder.id =
        m.gtt_orders.map GTTOrder.id) ∧
      oco_pair_state (run_price_checks m checks).1.gtt_orders jT jS tid sid
        (a + eventCountFor tid (run_price_checks m checks).2)
        (b + eventCountFor sid (run_price_checks m checks).2) := by
  induction checks with
  | nil =>
    intro m a b _ _ _ hinv
    refine ⟨rfl, ?_⟩
    simpa [eventCountFor] using hinv
  | cons c rest ih =>
    intro m a b hnd hT hS hinv
    obtain ⟨s, p⟩ := c
    have hrun : run_price_checks m ((s, p) :: rest) =
        ((run_price_checks (check_triggers m s p).1 rest).1,
         (check_triggers m s p).2 ++ (run_price_checks (check_triggers m s p).1 rest).2) := rfl
    have hm1o : (check_triggers m s p).1.gtt_orders =
        (check_triggers_from m.oco_pairs s p m.gtt_orders 0 m.gtt_orders.length).1 := rfl
    have hm1e : (check_triggers m s p).2 =
        (check_triggers_from m.oco_pairs s p m.gtt_orders 0 m.gtt_orders.length).2 := rfl
    have hm1oco : (check_triggers m s p).1.oco_pairs = m.oco_pairs := rfl
    obtain ⟨hmapP, hinvP⟩ := check_triggers_from_oco m.oco_pairs s p tid sid jT jS hts hjTS
      hT hS m.gtt_orders.length 0 m.gtt_orders a b hnd hinv
    obtain ⟨hmapR, hinvR⟩ := ih (check_triggers m s p).1
      (a + eventCountFor tid (check_triggers m s p).2)
      (b + eventCountFor sid (check_triggers m s p).2)
      (by rw [hm1o, hmapP]; exact hnd)
      (by rw [hm1oco]; exact hT)
      (by rw [hm1oco]; exact hS)
      (by rw [hm1o, hm1e]; exact hinvP)
    rw [hrun]
    refine ⟨?_, ?_⟩
    · show (run_price_checks (check_triggers m s p).1 rest).1.gtt_orders.map GTTOrder.id =
        m.gtt_orders.map GTTOrder.id
      rw [hmapR, hm1o, hmapP]
    · show oco_pair_state (run_price_checks (check_triggers m s p).1 rest).1.gtt_orders
        jT jS tid sid
        (a + eventCountFor tid ((check_triggers m s p).2 ++
          (run_price_checks (check_triggers m s p).1 rest).2))
        (b + eventCountFor sid ((check_triggers m s p).2 ++
          (run_price_checks (check_triggers m s p).1 rest).2))
      rw [eventCountFor_append, eventCountFor_append]
      have e1 : a + (eventCountFor tid (check_triggers m s p).2 +
          eventCountFor tid (run_price_checks (check_triggers m s p).1 rest).2) =
          (a + eventCountFor tid (check_triggers m s p).2) +
          eventCountFor tid (run_price_checks (check_triggers m s p).1 rest).2 := by omega
      have e2 : b + (eventCountFor sid (check_triggers m s p).2 +
          eventCountFor sid (run_price_checks (check_triggers m s p).1 rest).2) =
          (b + eventCountFor sid (check_triggers m s p).2) +
          eventCountFor sid (run_price_checks (check_triggers m s p).1 rest).2 := by omega
      rw [e1, e2]
      exact hinvR

theorem oco_lookup_append_left {l1 l2 : List (Nat × Nat)} {k : Nat}
    (h : oco_lookup l1 k = none) : oco_lookup (l1 ++ l2) k = oco_lookup l2 k := by
  induction l1 with
  | nil => simp
  | cons kv rest ih =>
    obtain ⟨k1, v1⟩ := kv
    by_cases hk : k1 = k
    · exfalso
      simp only [oco_lookup, if_pos hk] at h
      exact Option.noConfusion h
    · simp only [oco_lookup, if_neg hk] at h
      rw [List.cons_append]
      simp only [oco_lookup, if_neg hk]
      exact ih h

theorem place_oco_gtt_orders (m : AdvancedOrderManager) (tid sid : Nat) (symbol : String)
    (tp sp : ℚ) (q : Int) :
    (place_oco m tid sid symbol tp sp q).gtt_orders =
      m.gtt_orders ++
        [{ id := tid, symbol := symbol, trigger_price := tp, limit_price := tp,
           quantity := q, side := "SELL", condition := "GTE", status := GttStatus.ACTIVE },
         { id := sid, symbol := symbol, trigger_price := sp, limit_price := sp,
           quantity := q, side := "SELL", condition := "LTE", status := GttStatus.ACTIVE }] := by
  simp [place_oco, place_gtt]

theorem place_oco_oco_pairs (m : AdvancedOrderManager) (tid sid : Nat) (symbol : String)
    (tp sp : ℚ) (q : Int) :
    (place_oco m tid sid symbol tp sp q).oco_pairs =
      m.oco_pairs ++ [(tid, sid), (sid, tid)] := rfl

/-- C8: an OCO pair placed together (fresh ids, fresh `oco_pairs` keys)
produces at most one order-submission event over any sequence of price
checks — even when one price satisfies both legs within one `check_triggers`
call — and when one leg fires, its partner ends CANCELLED with no event of
its own. -/
theorem C8_oco_pair (m : AdvancedOrderManager) (target_id sl_id : Nat) (symbol : String)
    (target_price stop_loss_price : ℚ) (quantity : Int) (checks : List (String × ℚ))
    (hnd : (m.gtt_orders.map GTTOrder.id).Nodup)
    (htid : target_id ∉ m.gtt_orders.map GTTOrder.id)
    (hsid : sl_id ∉ m.gtt_orders.map GTTOrder.id)
    (hts : target_id ≠ sl_id)
    (htk : oco_lookup m.oco_pairs target_id = none)
    (hsk : oco_lookup m.oco_pairs sl_id = none) :
    eventCountFor target_id (run_price_checks
        (place_oco m target_id sl_id symbol target_price stop_loss_price quantity) checks).2 +
      eventCountFor sl_id (run_price_checks
        (place_oco m target_id sl_id symbol target_price stop_loss_price quantity) checks).2
      ≤ 1 ∧
    ∃ gT gS,
      (run_price_checks (place_oco m target_id sl_id symbol target_price stop_loss_price
        quantity) checks).1.gtt_orders[m.gtt_orders.length]? = some gT ∧
      (run_price_checks (place_oco m target_id sl_id symbol target_price stop_loss_price
        quantity) checks).1.gtt_orders[m.gtt_orders.length + 1]? = some gS ∧
      (1 ≤ eventCountFor target_id (run_price_checks (place_oco m target_id sl_id symbol
          target_price stop_loss_price quantity) checks).2 →
        gT.status = GttStatus.TRIGGERED ∧ gS.status = GttStatus.CANCELLED ∧
        eventCountFor sl_id (run_price_checks (place_oco m target_id sl_id symbol
          target_price stop_loss_price quantity) checks).2 = 0) ∧
      (1 ≤ eventCountFor sl_id (run_price_checks (place_oco m target_id sl_id symbol
          target_price stop_loss_price quantity) checks).2 →
        gS.status = GttStatus.TRIGGERED ∧ gT.status = GttStatus.CANCELLED ∧
        eventCountFor target_id (run_price_checks (place_oco m target_id sl_id symbol
          target_price stop_loss_price quantity) checks).2 = 0) := by
  have hMo := place_oco_gtt_orders m target_id sl_id symbol target_price stop_loss_price quantity
  have hMoco := place_oco_oco_pairs m target_id sl_id symbol target_price stop_loss_price quantity
  have hMids : (place_oco m target_id sl_id symbol target_price stop_loss_price
      quantity).gtt_orders.map GTTOrder.id =
      m.gtt_orders.map GTTOrder.id ++ [target_id, sl_id] := by
    rw [hMo]
    simp
  have hMnd : ((place_oco m target_id sl_id symbol target_price stop_loss_price
      quantity).gtt_orders.map GTTOrder.id).Nodup := by
    rw [hMids, List.nodup_append]
    refine ⟨hnd, by simp [hts], ?_⟩
    intro x hx
    simp only [List.mem_cons, List.mem_singleton, List.not_mem_nil, or_false]
    rintro (rfl | rfl)
    · exact htid hx
    · exact hsid hx
  have hMT : oco_lookup (place_oco m target_id sl_id symbol target_price stop_loss_price
      quantity).oco_pairs target_id = some sl_id := by
    rw [hMoco, oco_lookup_append_left htk]
    simp [oco_lookup]
  have hMS : oco_lookup (place_oco m target_id sl_id symbol target_price stop_loss_price
      quantity).oco_pairs sl_id = some target_id := by
    rw [hMoco, oco_lookup_append_left hsk]
    simp only [oco_lookup]
    rw [if_neg hts]
    simp
  have hjT : (place_oco m target_id sl_id symbol target_price stop_loss_price
      quantity).gtt_orders[m.gtt_orders.length]? =
      some { id := target_id, symbol := symbol, trigger_price := target_price,
             limit_price := target_price, quantity := quantity, side := "SELL",
             condition := "GTE", status := GttStatus.ACTIVE } := by
    rw [hMo, List.getElem?_append_right (Nat.le_refl _)]
    simp
  have hjS : (place_oco m target_id sl_id symbol target_price stop_loss_price
      quantity).gtt_orders[m.gtt_orders.length + 1]? =
      some { id := sl_id, symbol := symbol, trigger_price := stop_loss_price,
             limit_price := stop_loss_price, quantity := quantity, side := "SELL",
             condition := "LTE", status := GttStatus.ACTIVE } := by
    rw [hMo, List.getElem?_append_right (by omega)]
    have : m.gtt_orders.length + 1 - m.gtt_orders.length = 1 := by omega
    rw [this]
    simp
  have hinit : oco_pair_state (place_oco m target_id sl_id symbol target_price
      stop_loss_price quantity).gtt_orders m.gtt_orders.length (m.gtt_orders.length + 1)
      target_id sl_id 0 0 :=
    ⟨_, _, hjT, hjS, rfl, rfl, Or.inl ⟨rfl, rfl, by simp, by simp⟩⟩
  obtain ⟨_, hinvF⟩ := run_price_checks_oco target_id sl_id m.gtt_orders.length
    (m.gtt_orders.length + 1) hts (by omega) checks
    (place_oco m target_id sl_id symbol target_price stop_loss_price quantity) 0 0
    hMnd hMT hMS hinit
  obtain ⟨gT, gS, hjTf, hjSf, _, _, hdisj⟩ := hinvF
  refine ⟨?_, gT, gS, hjTf, hjSf, ?_, ?_⟩
  · rcases hdisj with ⟨h1, h2, _, _⟩ | ⟨h1, h2, _, _⟩ | ⟨h1, h2, _, _⟩ <;> omega
  · intro hone
    rcases hdisj with ⟨h1, h2, _, _⟩ | ⟨h1, h2, h3, h4⟩ | ⟨h1, h2, _, _⟩
    · omega
    · exact ⟨h3, h4, by omega⟩
    · omega
  · intro hone
    rcases hdisj with ⟨h1, h2, _, _⟩ | ⟨h1, h2, _, _⟩ | ⟨h1, h2, h3, h4⟩
    · omega
    · omega
    · exact ⟨h3, h4, by omega⟩

theorem C8_oco_pair_witness :
    eventCountFor 1 (run_price_checks
        (place_oco { gtt_orders := [], oco_pairs := [] } 1 2 "X" 520 480 1) [("X", 525)]).2 +
      eventCountFor 2 (run_price_checks
        (place_oco { gtt_orders := [], oco_pairs := [] } 1 2 "X" 520 480 1) [("X", 525)]).2
      ≤ 1 ∧
    ∃ gT gS,
      (run_price_checks (place_oco { gtt_orders := [], oco_pairs := [] } 1 2 "X" 520 480 1)
        [("X", 525)]).1.gtt_orders[(0 : Nat)]? = some gT ∧
      (run_price_checks (place_oco { gtt_orders := [], oco_pairs := [] } 1 2 "X" 520 480 1)
        [("X", 525)]).1.gtt_orders[(1 : Nat)]? = some gS ∧
      (1 ≤ eventCountFor 1 (run_price_checks
          (place_oco { gtt_orders := [], oco_pairs := [] } 1 2 "X" 520 480 1)
          [("X", 525)]).2 →
        gT.status = GttStatus.TRIGGERED ∧ gS.status = GttStatus.CANCELLED ∧
        eventCountFor 2 (run_price_checks
          (place_oco { gtt_orders := [], oco_pairs := [] } 1 2 "X" 520 480 1)
          [("X", 525)]).2 = 0) ∧
      (1 ≤ eventCountFor 2 (run_price_checks
          (place_oco { gtt_orders := [], oco_pairs := [] } 1 2 "X" 520 480 1)
          [("X", 525)]).2 →
        gS.status = GttStatus.TRIGGERED ∧ gT.status = GttStatus.CANCELLED ∧
        eventCountFor 1 (run_price_checks
          (place_oco { gtt_orders := [], oco_pairs := [] } 1 2 "X" 520 480 1)
          [("X", 525)]).2 = 0) :=
  C8_oco_pair { gtt_orders := [], oco_pairs := [] } 1 2 "X" 520 480 1 [("X", 525)]
    (by simp) (by simp) (by simp) (by decide) rfl rfl

/-! ## Theorems for claim C9 -/

/-- C9: a bracket order whose stop-loss/target are not on the correct side of
the entry for its direction (BUY needs `stopLoss < entry < target`, SELL the
reverse) is rejected synchronously at construction: no id is returned, the
manager state is unchanged (no order is created or stored, so nothing ever
reaches PENDING or any later state), and no order-submission event is
emitted. -/
theorem C9_bracket_rejects_inverted (m : BracketOrderManager) (id_ : Nat)
    (symbol side : String) (quantity : Int) (entry_price stop_loss target : ℚ)
    (order_type : String)
    (h : (side = "BUY" ∧ ¬ (stop_loss < entry_price ∧ entry_price < target)) ∨
         (side = "SELL" ∧ ¬ (target < entry_price ∧ entry_price < stop_loss))) :
    place_bracket_order m id_ symbol side quantity entry_price stop_loss target order_type =
      (none, m, []) := by
  unfold place_bracket_order
  rcases h with ⟨hbuy, hcond⟩ | ⟨hsell, hcond⟩
  · rcases not_and_or.1 hcond with hx | hx
    · rw [if_pos ⟨hbuy, not_lt.1 hx⟩]
    · by_cases h1 : entry_price ≤ stop_loss
      · rw [if_pos ⟨hbuy, h1⟩]
      · rw [if_neg (by tauto), if_pos ⟨hbuy, not_lt.1 hx⟩]
  · have hnb : side ≠ "BUY" := by rw [hsell]; decide
    rcases not_and_or.1 hcond with hx | hx
    · by_cases h1 : stop_loss ≤ entry_price
      · rw [if_neg (by tauto), if_neg (by tauto), if_pos ⟨hnb, h1⟩]
      · rw [if_neg (by tauto), if_neg (by tauto), if_neg (by tauto),
          if_pos ⟨hnb, not_lt.1 hx⟩]
    · rw [if_neg (by tauto), if_neg (by tauto), if_pos ⟨hnb, not_lt.1 hx⟩]

theorem C9_bracket_rejects_inverted_witness :
    place_bracket_order { orders := [] } 1 "SBIN" "BUY" 1 500 510 490 "LIMIT" =
      (none, { orders := [] }, []) :=
  C9_bracket_rejects_inverted { orders := [] } 1 "SBIN" "BUY" 1 500 510 490 "LIMIT"
    (Or.inl ⟨rfl, by norm_num⟩)

theorem C5_token_bucket_witness :
    (∀ (s : LimiterState) (now n : ℚ),
      ((limiter_acquire s now n).1 = true ↔
        n ≤ min s.capacity (s.tokens + (now - s.last_update) * s.rate)) ∧
      (limiter_acquire s now n).2.tokens =
        (if n ≤ min s.capacity (s.tokens + (now - s.last_update) * s.rate)
         then min s.capacity (s.tokens + (now - s.last_update) * s.rate) - n
         else min s.capacity (s.tokens + (now - s.last_update) * s.rate)) ∧
      (limiter_acquire s now n).2.last_update = now) ∧
    (limiter_acquireRun (TokenBucketRateLimiter_init 10 10 0)
        (List.replicate 11 0 ++ [3/20, 3/20])).1 =
      List.replicate 10 true ++ [false, true, false] :=
  C5_token_bucket (3/20) (by norm_num) (by norm_num)

/-! ## Theorems for claims C1 and C2 -/

theorem chunkRanges_step (f t cs : Int) (h1 : f < t) (h2 : 0 < cs) :
    chunkRanges f t cs =
      (f, min (f + cs) t) :: chunkRanges (min (f + cs) t) t cs := by
  rw [chunkRanges]
  rw [dif_pos ⟨h1, h2⟩]

theorem chunkRanges_nil (f t cs : Int) (h : ¬ (f < t ∧ 0 < cs)) :
    chunkRanges f t cs = [] := by
  rw [chunkRanges]
  rw [dif_neg h]

theorem chunkRanges_length (n : Nat) : ∀ f t cs : Int, 0 < cs →
    cs * (n : Int) < t - f → t - f ≤ cs * ((n : Int) + 1) →
    (chunkRanges f t cs).length = n + 1 := by
  induction n with
  | zero =>
    intro f t cs hcs h1 h2
    simp only [Nat.cast_zero, Int.mul_zero] at h1
    simp only [Nat.cast_zero, Int.zero_add, Int.mul_one] at h2
    rw [chunkRanges_step f t cs (by omega) hcs]
    have hmin : min (f + cs) t = t := by omega
    rw [hmin, chunkRanges_nil t t cs (by omega)]
    rfl
  | succ n ih =>
    intro f t cs hcs h1 h2
    have hc1 : cs * ((n : Int) + 1) = cs * (n : Int) + cs := by ring
    have hc2 : cs * (((n : Int) + 1) + 1) = cs * ((n : Int) + 1) + cs := by ring
    have hnn : (0 : Int) ≤ cs * (n : Int) :=
      mul_nonneg hcs.le (by positivity)
    push_cast at h1 h2
    rw [hc1] at h1
    rw [hc2, hc1] at h2
    have hft : f < t := by omega
    have hmin : min (f + cs) t = f + cs := by omega
    rw [chunkRanges_step f t cs hft hcs, hmin]
    have := ih (f + cs) t cs hcs (by omega) (by rw [hc1]; omega)
    simp [this]

theorem recommended_chunk_days_one_minute : recommended_chunk_days "ONE_MINUTE" = 1 := by
  decide

theorem recommended_chunk_days_fifteen : recommended_chunk_days "FIFTEEN_MINUTE" = 3 := by
  decide

theorem chunk_request_ranges_one_minute (f t : Int) :
    chunk_request_ranges "ONE_MINUTE" f t 3 = chunkRanges f t 86400 := by
  unfold chunk_request_ranges
  rw [recommended_chunk_days_one_minute]
  norm_num

theorem chunk_request_ranges_fifteen (f t : Int) :
    chunk_request_ranges "FIFTEEN_MINUTE" f t 3 = chunkRanges f t 259200 := by
  unfold chunk_request_ranges
  rw [recommended_chunk_days_fifteen]
  norm_num

/-- C2 counterexample: over the 10-day range `[0, 864000)` with
`chunk_days = 3` and interval ONE_MINUTE, the loop issues 10 sub-requests
(the chunk size is clamped to the 1-day per-interval default), not 4. -/
theorem C2_counterexample :
    (chunk_request_ranges "ONE_MINUTE" 0 864000 3).length = 10 ∧
    (chunk_request_ranges "ONE_MINUTE" 0 864000 3).length ≠ 4 := by
  have h := chunkRanges_length 9 0 864000 86400 (by norm_num) (by norm_num) (by norm_num)
  rw [chunk_request_ranges_one_minute]
  rw [h]
  exact ⟨rfl, by norm_num⟩

theorem dropDupTimestamps_spec : ∀ (l : List Candle) (seen : List ℚ),
    ((dropDupTimestamps seen l).map Candle.timestamp).Nodup ∧
    ∀ t ∈ (dropDupTimestamps seen l).map Candle.timestamp, t ∉ seen := by
  intro l
  induction l with
  | nil => intro seen; simp [dropDupTimestamps]
  | cons c rest ih =>
    intro seen
    rw [dropDupTimestamps]
    by_cases hc : c.timestamp ∈ seen
    · rw [if_pos hc]
      exact ih seen
    · rw [if_neg hc]
      obtain ⟨ihn, ihs⟩ := ih (c.timestamp :: seen)
      constructor
      · rw [List.map_cons, List.nodup_cons]
        refine ⟨?_, ihn⟩
        intro hmem
        exact (ihs c.timestamp hmem) (List.mem_cons_self _ _)
      · intro t ht
        rw [List.map_cons, List.mem_cons] at ht
        rcases ht with rfl | ht
        · exact hc
        · intro hseen
          exact (ihs t ht) (List.mem_cons_of_mem _ hseen)

theorem sortCandles_sorted_ts (l : List Candle) :
    ((sortCandles l).map Candle.timestamp).Sorted (· ≤ ·) := by
  have hs : (sortCandles l).Sorted candleLE := List.sorted_insertionSort candleLE l
  exact List.Pairwise.map Candle.timestamp (fun a b h => h) hs

theorem sortCandles_nodup_ts (l : List Candle)
    (h : (l.map Candle.timestamp).Nodup) :
    ((sortCandles l).map Candle.timestamp).Nodup := by
  have hperm : List.Perm ((sortCandles l).map Candle.timestamp) (l.map Candle.timestamp) :=
    (List.perm_insertionSort candleLE l).map Candle.timestamp
  exact hperm.nodup_iff.2 h

theorem zipWith_tail_short {l : List ℚ} (h : l.length < 2) :
    List.zipWith (fun a b => b - a) l l.tail = [] := by
  match l, h with
  | [], _ => rfl
  | [x], _ => rfl

theorem continuity_summary_dup_of_nodup (df : List Candle) (interval : String)
    (hs : (df.map Candle.timestamp).Sorted (· ≤ ·))
    (hn : (df.map Candle.timestamp).Nodup) :
    (continuity_summary df interval).duplicate_count = 0 := by
  unfold continuity_summary
  by_cases hdf : df = []
  · subst hdf; simp
  · rw [if_neg hdf]
    have hts : (df.map Candle.timestamp).insertionSort (· ≤ ·) = df.map Candle.timestamp :=
      List.Sorted.insertionSort_eq hs
    have hdedup : (df.map Candle.timestamp).dedup = df.map Candle.timestamp :=
      List.dedup_eq_self.2 hn
    cases hE : INTERVAL_SECONDS (upperAscii interval) with
    | none => simp [hts, hdedup, hE]
    | some e =>
      by_cases hlen : df.length < 2 <;> simp [hts, hdedup, hE, hlen]

theorem continuity_summary_eq_of_sorted_nodup (df : List Candle) (interval : String)
    (hs : (df.map Candle.timestamp).Sorted (· ≤ ·))
    (hn : (df.map Candle.timestamp).Nodup) (e : Nat)
    (hE : INTERVAL_SECONDS (upperAscii interval) = some e) :
    continuity_summary df interval = ⟨gapCount df e, 0⟩ := by
  unfold continuity_summary
  by_cases hdf : df = []
  · subst hdf
    simp [gapCount]
  · rw [if_neg hdf]
    have hts : (df.map Candle.timestamp).insertionSort (· ≤ ·) = df.map Candle.timestamp :=
      List.Sorted.insertionSort_eq hs
    have hdedup : (df.map Candle.timestamp).dedup = df.map Candle.timestamp :=
      List.dedup_eq_self.2 hn
    by_cases hlen : df.length < 2
    · have hzip : gapCount df e = 0 := by
        unfold gapCount
        rw [zipWith_tail_short (by simpa using hlen)]
        rfl
      simp [hts, hdedup, hE, hlen, hzip]
    · simp [hts, hdedup, hE, hlen, gapCount]

theorem ghdc_eq_some (fetch : Int → Int → Option (List Candle)) (interval : String)
    (from_date to_date chunk_days : Int)
    (hne : collectChunks fetch
      (chunk_request_ranges interval from_date to_date chunk_days) ≠ []) :
    get_historical_data_chunked fetch interval from_date to_date chunk_days =
      some (sortCandles (dropDupTimestamps []
        (collectChunks fetch
          (chunk_request_ranges interval from_date to_date chunk_days)).flatten)) := by
  unfold get_historical_data_chunked
  rw [if_neg hne]

theorem ghdc_merged_sorted_nodup (fetch : Int → Int → Option (List Candle))
    (interval : String) (from_date to_date chunk_days : Int) (merged : List Candle)
    (h : get_historical_data_chunked fetch interval from_date to_date chunk_days =
      some merged) :
    (merged.map Candle.timestamp).Sorted (· ≤ ·) ∧
    (merged.map Candle.timestamp).Nodup := by
  unfold get_historical_data_chunked at h
  by_cases hne : collectChunks fetch
      (chunk_request_ranges interval from_date to_date chunk_days) = []
  · rw [if_pos hne] at h
    exact absurd h (by simp)
  · rw [if_neg hne] at h
    have hm : merged = sortCandles (dropDupTimestamps []
        (collectChunks fetch
          (chunk_request_ranges interval from_date to_date chunk_days)).flatten) :=
      (Option.some.inj h).symm
    rw [hm]
    exact ⟨sortCandles_sorted_ts _,
      sortCandles_nodup_ts _ (dropDupTimestamps_spec _ []).1⟩

/-- C1 (amended): when at least one chunk returns data, the chunked fetch
returns the concatenated chunks de-duplicated by timestamp (keep-first) and
sorted ascending; the continuity report it computes (and only logs) is over
that already de-duplicated series, so `duplicate_count` is always 0 — not
the pre-de-duplication repeat count — while `gap_count` counts the
inter-sample deltas of the returned series exceeding 1.5× the nominal
interval. -/
theorem C1_chunked_merge_and_continuity (fetch : Int → Int → Option (List Candle))
    (interval : String) (from_date to_date chunk_days : Int)
    (hne : collectChunks fetch
      (chunk_request_ranges interval from_date to_date chunk_days) ≠ []) :
    get_historical_data_chunked fetch interval from_date to_date chunk_days =
      some (sortCandles (dropDupTimestamps []
        (collectChunks fetch
          (chunk_request_ranges interval from_date to_date chunk_days)).flatten)) ∧
    ∀ merged,
      get_historical_data_chunked fetch interval from_date to_date chunk_days =
        some merged →
      (merged.map Candle.timestamp).Sorted (· ≤ ·) ∧
      (merged.map Candle.timestamp).Nodup ∧
      (chunked_continuity fetch interval from_date to_date chunk_days).duplicate_count
        = 0 ∧
      ∀ e, INTERVAL_SECONDS (upperAscii interval) = some e →
        (chunked_continuity fetch interval from_date to_date chunk_days).gap_count =
          gapCount merged e := by
  refine ⟨ghdc_eq_some fetch interval from_date to_date chunk_days hne, ?_⟩
  intro merged hm
  obtain ⟨hs, hn⟩ :=
    ghdc_merged_sorted_nodup fetch interval from_date to_date chunk_days merged hm
  have hcc : chunked_continuity fetch interval from_date to_date chunk_days =
      continuity_summary merged interval := by
    unfold chunked_continuity
    rw [hm]
  refine ⟨hs, hn, ?_, ?_⟩
  · rw [hcc]
    exact continuity_summary_dup_of_nodup merged interval hs hn
  · intro e hE
    rw [hcc, continuity_summary_eq_of_sorted_nodup merged interval hs hn e hE]

theorem chunk_request_ranges_ex1 :
    chunk_request_ranges "ONE_MINUTE" 0 172800 1 = [(0, 86400), (86400, 172800)] := by
  have h0 : chunk_request_ranges "ONE_MINUTE" 0 172800 1 = chunkRanges 0 172800 86400 := by
    unfold chunk_request_ranges
    rw [recommended_chunk_days_one_minute]
    norm_num
  rw [h0]
  rw [chunkRanges_step 0 172800 86400 (by norm_num) (by norm_num)]
  rw [show min ((0:Int) + 86400) 172800 = 86400 by omega]
  rw [chunkRanges_step 86400 172800 86400 (by norm_num) (by norm_num)]
  rw [show min ((86400:Int) + 86400) 172800 = 172800 by omega]
  rw [chunkRanges_nil 172800 172800 86400 (by omega)]

/-- C1 counterexample: two day-chunks of ONE_MINUTE data sharing the boundary
candle at t = 60.  One timestamp repeats before de-duplication, yet the
continuity report computed by the chunked fetch says `duplicate_count = 0`,
because it is computed after `drop_duplicates` (data_client.py lines
284-287). -/
theorem C1_counterexample :
    (chunked_continuity exFetchC1 "ONE_MINUTE" 0 172800 1).duplicate_count = 0 ∧
    duplicatesBeforeDedup (collectChunks exFetchC1
      (chunk_request_ranges "ONE_MINUTE" 0 172800 1)) = 1 ∧
    (chunked_continuity exFetchC1 "ONE_MINUTE" 0 172800 1).duplicate_count ≠
      duplicatesBeforeDedup (collectChunks exFetchC1
        (chunk_request_ranges "ONE_MINUTE" 0 172800 1)) := by
  have hg : get_historical_data_chunked exFetchC1 "ONE_MINUTE" 0 172800 1 =
      some [exCandle 0, exCandle 60, exCandle 120] := by
    unfold get_historical_data_chunked
    rw [chunk_request_ranges_ex1]
    decide
  have hcc : chunked_continuity exFetchC1 "ONE_MINUTE" 0 172800 1 =
      continuity_summary [exCandle 0, exCandle 60, exCandle 120] "ONE_MINUTE" := by
    unfold chunked_continuity
    rw [hg]
  have hdupzero : (chunked_continuity exFetchC1 "ONE_MINUTE" 0 172800 1).duplicate_count
      = 0 := by
    rw [hcc]
    exact continuity_summary_dup_of_nodup _ _ (by decide) (by decide)
  have hdup : duplicatesBeforeDedup (collectChunks exFetchC1
      (chunk_request_ranges "ONE_MINUTE" 0 172800 1)) = 1 := by
    rw [chunk_request_ranges_ex1]
    decide
  refine ⟨hdupzero, hdup, ?_⟩
  rw [hdupzero, hdup]
  decide

theorem C1_chunked_merge_and_continuity_witness :
    get_historical_data_chunked exFetchC1 "ONE_MINUTE" 0 172800 1 =
      some (sortCandles (dropDupTimestamps []
        (collectChunks exFetchC1
          (chunk_request_ranges "ONE_MINUTE" 0 172800 1)).flatten)) :=
  (C1_chunked_merge_and_continuity exFetchC1 "ONE_MINUTE" 0 172800 1
    (by rw [chunk_request_ranges_ex1]; decide)).1

/-- C2 (amended): over a 10-day range with `chunk_days = 3`, the number of
sub-requests depends on the interval's recommended clamp: for
FIFTEEN_MINUTE (clamp 3) exactly 4 sequential sub-requests are issued, and
the merged output never contains duplicate timestamps. -/
theorem C2_chunking_fifteen (fetch : Int → Int → Option (List Candle)) (f : Int)
    (merged : List Candle)
    (h : get_historical_data_chunked fetch "FIFTEEN_MINUTE" f (f + 864000) 3 =
      some merged) :
    (chunk_request_ranges "FIFTEEN_MINUTE" f (f + 864000) 3).length = 4 ∧
    (merged.map Candle.timestamp).Nodup := by
  constructor
  · rw [chunk_request_ranges_fifteen]
    exact chunkRanges_length 3 f (f + 864000) 259200 (by norm_num)
      (by push_cast; omega) (by push_cast; omega)
  · exact (ghdc_merged_sorted_nodup fetch "FIFTEEN_MINUTE" f (f + 864000) 3 merged h).2

theorem chunk_request_ranges_ex2 :
    chunk_request_ranges "FIFTEEN_MINUTE" 0 864000 3 =
      [(0, 259200), (259200, 518400), (518400, 777600), (777600, 864000)] := by
  rw [chunk_request_ranges_fifteen]
  rw [chunkRanges_step 0 864000 259200 (by norm_num) (by norm_num)]
  rw [show min ((0:Int) + 259200) 864000 = 259200 by omega]
  rw [chunkRanges_step 259200 864000 259200 (by norm_num) (by norm_num)]
  rw [show min ((259200:Int) + 259200) 864000 = 518400 by omega]
  rw [chunkRanges_step 518400 864000 259200 (by norm_num) (by norm_num)]
  rw [show min ((518400:Int) + 259200) 864000 = 777600 by omega]
  rw [chunkRanges_step 777600 864000 259200 (by norm_num) (by norm_num)]
  rw [show min ((777600:Int) + 259200) 864000 = 864000 by omega]
  rw [chunkRanges_nil 864000 864000 259200 (by omega)]

theorem C2_chunking_fifteen_witness :
    (chunk_request_ranges "FIFTEEN_MINUTE" 0 (0 + 864000) 3).length = 4 ∧
    (([exCandle 0] : List Candle).map Candle.timestamp).Nodup :=
  C2_chunking_fifteen exFetchC2 0 [exCandle 0] (by
    unfold get_historical_data_chunked
    rw [show (0:Int) + 864000 = 864000 from rfl]
    rw [chunk_request_ranges_ex2]
    decide)
